import Mathlib

/-!
# Verification of the sparktuner core against its specification

Shallow embedding of the sparktuner repository (Python) in Lean 4:

* `spark_param.py`   — typed Spark parameters (string / int / memory / boolean),
  range parsing and construction (`SparkParamType.__init__`, `cast_from_str`,
  `get_maybe_range_from_str`, `make_param_from_str`);
* `util.py`          — `Util.format_size`, `Util.isclose`, `Util.ratio`;
* `spark_cmd.py`     — `SparkSubmitCmd.merge_params`;
* `spark_default_param.py` — the flag registries;
* `tuner_cfg.py`     — `ScaledIntegerParameter`, `MinimizeTimeAndResource`,
  and a control-flow model of `MeasurementInterfaceExt.call_program`.

Modelling conventions:

* Python exceptions become an explicit `PyErr` error channel (`Except`).
* Python numbers: integers are `ℤ`/`ℕ`; float arithmetic is modelled by exact
  rationals `ℚ`.  Every float operation performed by the embedded code is a
  division by the power of two `1024.0`, a subtraction, or a comparison, all
  of which are exact in IEEE double precision as long as the integral inputs
  are below `2 ^ 53`; theorems that need this fidelity bound carry it as a
  hypothesis.
* Python `dict`s become association lists (`Dict α`) with insertion-order
  semantics: updating an existing key keeps its position, a new key is
  appended — exactly CPython's behaviour.
-/

namespace Sparktuner

/-- Python exceptions raised by the embedded code.
`SparkParamParseError(expression, message)` carries an exception-class object
in `expression`; only the message is modelled. -/
inductive PyErr where
  /-- `spark_param.SparkParamParseError` -/
  | parseError (msg : String)
  /-- a failed `assert` statement -/
  | assertionError
  /-- attribute access on an object lacking the attribute
  (e.g. `.value` on a non-`SparkParamType`) -/
  | attributeError
  /-- `util.InvalidSize` -/
  | invalidSize (msg : String)
  deriving DecidableEq, Repr

/-- discriminator: is this exception a `SparkParamParseError`? -/
def PyErr.isParseError : PyErr → Bool
  | .parseError _ => true
  | _ => false

instance {ε α : Type} [DecidableEq ε] [DecidableEq α] :
    DecidableEq (Except ε α) := fun x y =>
  match x, y with
  | .error a, .error b =>
      if h : a = b then .isTrue (by rw [h])
      else .isFalse (fun hh => h (Except.error.inj hh))
  | .error _, .ok _ => .isFalse (fun hh => Except.noConfusion hh)
  | .ok _, .error _ => .isFalse (fun hh => Except.noConfusion hh)
  | .ok a, .ok b =>
      if h : a = b then .isTrue (by rw [h])
      else .isFalse (fun hh => h (Except.ok.inj hh))

/-- A Python value as stored in `SparkParamType.value`: a string, a bool, an
int, or a 2- or 3-tuple of ints (the only tuples the source ever builds). -/
inductive PVal where
  | pstr (s : String)
  | pbool (b : Bool)
  | pint (n : ℤ)
  | ptup2 (a b : ℤ)
  | ptup3 (a b c : ℤ)
  deriving DecidableEq, Repr

/-- A Python float: a finite value (exact rational), `inf`, `-inf` or `nan`. -/
inductive PyFloat where
  | real (q : ℚ)
  | pinf
  | ninf
  | nan
  deriving DecidableEq, Repr


end Sparktuner

namespace Sparktuner

/-! ## Python dict model -/

/-- A Python `dict`, as an insertion-ordered association list. -/
abbrev Dict (α : Type) := List (String × α)

/-- `d[a]` / `a in d` on a Python dict: the value stored at key `a`
(keys are unique in dicts built by `dictInsert`, so first match). -/
def dlookup (a : String) : Dict α → Option α
  | [] => none
  | kv :: tl => if kv.1 = a then some kv.2 else dlookup a tl

/-- `d[k] = v` on a Python dict: replace in place if `k` is present
(keeping its position), else append at the end. -/
def dictInsert (d : Dict α) (k : String) (v : α) : Dict α :=
  if (dlookup k d).isSome then
    d.map (fun p => if p.1 = k then (k, v) else p)
  else
    d ++ [(k, v)]

/-- `d.update(e)` on Python dicts: insert every entry of `e` into `d`,
left to right. -/
def dictUpdate (d e : Dict α) : Dict α :=
  e.foldl (fun acc kv => dictInsert acc kv.1 kv.2) d

/-! ## util.py -/

/-- `int(q)` on a Python number: truncation toward zero (also the conversion
`"%d" % q` performs). -/
def pyTrunc (q : ℚ) : ℤ := if q < 0 then ⌈q⌉ else ⌊q⌋

/-- the base-10 digit characters of `n`, most significant first, pushed onto
`acc`; helper for rendering `"%d" % n`.  Structural recursion on a fuel
argument (any `fuel ≥ n` exhausts the digits). -/
def natDigitsGo (fuel : ℕ) (n : ℕ) (acc : List Char) : List Char :=
  match fuel with
  | 0 => acc
  | f + 1 =>
      if n = 0 then acc
      else natDigitsGo f (n / 10) (Char.ofNat (48 + n % 10) :: acc)

/-- decimal rendering of a natural number (`"%d" % n` for `n ≥ 0`). -/
def natToDecimal (n : ℕ) : List Char :=
  if n = 0 then ['0'] else natDigitsGo n n []

/-- `"%d" % z` for an integer value `z`. -/
def intToDecimalStr (z : ℤ) : String :=
  if z < 0 then String.mk ('-' :: natToDecimal z.natAbs)
  else String.mk (natToDecimal z.natAbs)

/-- `10 ^ (number of decimal digits of n)` (with `pow10 0 = 1`),
shaped like `natDigitsAux` for the induction. -/
def pow10 (n : ℕ) : ℕ :=
  if n = 0 then 1 else pow10 (n / 10) * 10
termination_by n
decreasing_by exact Nat.div_lt_self (Nat.pos_of_ne_zero (by assumption)) (by norm_num)

/-- one step of the decimal re-parsing fold. -/
def digitStep (a : ℕ) (c : Char) : ℕ := a * 10 + (c.toNat - 48)

namespace Util

/-- the unit ladder the `Util.format_size` loop walks (the final `p` is the
fall-through return). -/
def UNIT_LADDER : List String := ["b", "k", "m", "g", "t"]

/-- one loop test of `Util.format_size`:
`x == units or num < 1024 or (num != int(num) and num <= 9999)`. -/
def stopHere (num : ℚ) (units x : String) : Bool :=
  x == units || decide (num < 1024) ||
    (decide (num.den ≠ 1) && decide (num ≤ 9999))

/-- the `for x in ['b','k','m','g','t']` loop of `Util.format_size`;
`num /= 1024.0` is exact in double precision for inputs below `2 ^ 53`,
so the float state `num` is modelled by an exact rational. -/
def format_size_loop (num : ℚ) (units : String) : List String → String
  | [] => intToDecimalStr (pyTrunc num) ++ "p"
  | x :: rest =>
      if stopHere num units x then intToDecimalStr (pyTrunc num) ++ x
      else format_size_loop (num / 1024) units rest

/-- `Util.format_size`: rejects non-integral byte counts
(`isinstance(num_bytes, int)` — a fractional float models the non-`int`
input of the claims), then walks the unit ladder. -/
def format_size (num_bytes : ℚ) (units : String := "") : Except PyErr String :=
  if num_bytes.den ≠ 1 then
    .error (.invalidSize "Input bytes must be integral")
  else
    .ok (format_size_loop num_bytes units UNIT_LADDER)

/-- `Util.isclose`: `abs(a-b) <= max(rel_tol * max(abs(a), abs(b)), abs_tol)`. -/
def isclose (a b : ℚ) (rel_tol : ℚ := 1 / 1000000000) (abs_tol : ℚ := 0) :
    Bool :=
  decide (|a - b| ≤ max (rel_tol * max |a| |b|) abs_tol)

/-- `Util.ratio`: `float('inf') * a` when the denominator is `0`
(`+inf` for `a > 0`, `-inf` for `a < 0`, `nan` for `a == 0`),
else the exact quotient. -/
def ratioOf (a b : ℚ) : PyFloat :=
  if b = 0 then
    if a > 0 then .pinf else if a < 0 then .ninf else .nan
  else .real (a / b)

end Util

/-- binary byte-unit factors recognised by a unit-aware size parser. -/
def unitFactor : Char → Option ℕ
  | 'b' => some 1
  | 'k' => some 1024
  | 'm' => some (1024 ^ 2)
  | 'g' => some (1024 ^ 3)
  | 't' => some (1024 ^ 4)
  | 'p' => some (1024 ^ 5)
  | _ => none

/-- parse a nonempty all-digit character list as a decimal natural. -/
def decDigitsToNat (cs : List Char) : Option ℕ :=
  if cs.isEmpty then none
  else if cs.all Char.isDigit then some (cs.foldl digitStep 0)
  else none

/-- Modelled from the spec: the "correct unit-aware size parser" of the
round-trip property, and `humanfriendly.parse_size(..., binary=True)`
(a third-party library, not part of this repository) as exercised by
`SparkMemoryType.cast_from_str`: an integral decimal magnitude followed by
an optional binary-unit letter `b`/`k`/`m`/`g`/`t`/`p`. -/
def parse_size_chars (cs : List Char) : Option ℕ :=
  match cs.getLast? with
  | none => none
  | some u =>
    match unitFactor u with
    | some f => (decDigitsToNat cs.dropLast).map (fun m => m * f)
    | none => decDigitsToNat cs

/-- string front-end of `parse_size_chars`. -/
def parse_size (s : String) : Option ℕ := parse_size_chars s.data

/-! ## spark_param.py -/

/-- the concrete `SparkParamType` subclass a parameter object was built by
(used for `isinstance` dispatch). -/
inductive SparkKind where
  | string
  | int
  | memory
  | boolean
  deriving DecidableEq, Repr

/-- a constructed `SparkParamType` object. -/
structure SparkParamObj where
  spark_name : String
  is_range_val : Bool
  value : PVal
  desc : String
  kind : SparkKind
  deriving DecidableEq, Repr

/-- `isinstance(value, tuple)`. -/
def PVal.isTuple : PVal → Bool
  | .ptup2 _ _ => true
  | .ptup3 _ _ _ => true
  | _ => false

/-- `value[0] < value[1]` on a tuple value. -/
def PVal.fstLtSnd : PVal → Bool
  | .ptup2 a b => decide (a < b)
  | .ptup3 a b _ => decide (a < b)
  | _ => false

/-- `SparkParamType.__init__`: sets
`is_range_val = maybe_range and isinstance(value, tuple) and value[0] < value[1]`
and collapses a tuple with `value[0] == value[1]` to the point value
`value[0]`. -/
def paramInit (kind : SparkKind) (spark_name : String) (value : PVal)
    (maybe_range : Bool) (desc : String) : SparkParamObj :=
  let isR := maybe_range && value.isTuple && value.fstLtSnd
  let v :=
    if maybe_range then
      match value with
      | .ptup2 a b => if a = b then .pint a else value
      | .ptup3 a b _ => if a = b then .pint a else value
      | _ => value
    else value
  { spark_name := spark_name, is_range_val := isR, value := v,
    desc := desc, kind := kind }

/-- `SparkStringType.__init__`: `assert isinstance(value, str)`, then the base
constructor with `maybe_range = False`. -/
def SparkStringType.init (name : String) (value : PVal) (desc : String) :
    Except PyErr SparkParamObj :=
  match value with
  | .pstr _ => .ok (paramInit .string name value false desc)
  | _ => .error .assertionError

/-- `SparkIntType.__init__`:
`assert isinstance(value, int) or isinstance(value, tuple)` (a Python `bool`
is an `int`), then the base constructor with `maybe_range = True`. -/
def SparkIntType.init (name : String) (value : PVal) (desc : String) :
    Except PyErr SparkParamObj :=
  match value with
  | .pstr _ => .error .assertionError
  | _ => .ok (paramInit .int name value true desc)

/-- `SparkMemoryType.__init__`: same assert as `SparkIntType`. -/
def SparkMemoryType.init (name : String) (value : PVal) (desc : String) :
    Except PyErr SparkParamObj :=
  match value with
  | .pstr _ => .error .assertionError
  | _ => .ok (paramInit .memory name value true desc)

/-- `SparkBooleanType.__init__`: `assert isinstance(value, bool)`, then the
base constructor with `maybe_range = True`. -/
def SparkBooleanType.init (name : String) (value : PVal) (desc : String) :
    Except PyErr SparkParamObj :=
  match value with
  | .pbool _ => .ok (paramInit .boolean name value true desc)
  | _ => .error .assertionError

/-- worker for `str.split(",")`: `cur` holds the characters of the current
token, reversed. -/
def splitCommaAux : List Char → List Char → List String
  | [], cur => [String.mk cur.reverse]
  | c :: rest, cur =>
      if c = ',' then String.mk cur.reverse :: splitCommaAux rest []
      else splitCommaAux rest (c :: cur)

/-- Python `s.split(",")` (always at least one token; `"" → [""]`,
`"a," → ["a", ""]`). -/
def pySplitComma (s : String) : List String := splitCommaAux s.data []

/-- Python `str.lower()` (ASCII suffices for the compared literals). -/
def pyLower (s : String) : String := String.mk (s.data.map Char.toLower)

/-- Python `str.isdigit()`: nonempty and every character a decimal digit. -/
def strIsDigit (s : String) : Bool :=
  !s.data.isEmpty && s.data.all Char.isDigit

/-- Python `int(s)` on a decimal digit string. -/
def strToNat (s : String) : ℕ := s.data.foldl digitStep 0

/-- `SparkIntType.cast_from_str`: a digit string is converted and checked by
`check_if_legal` (`assert ... int_value > 0`); anything else raises
`SparkParamParseError`. -/
def SparkIntType.cast_from_str (s : String) : Except PyErr ℤ :=
  if strIsDigit s then
    if 0 < (strToNat s : ℤ) then .ok (strToNat s : ℤ)
    else .error .assertionError
  else .error (.parseError "Expected int value")

/-- Claim-side scan (for C5): the first token, in order, that integer
scalar parsing rejects, and the exception it raises — a non-digit token
raises `SparkParamParseError`, a digit token with value `0` fails the
positivity `assert`. -/
def firstIntFailure : List String → Option PyErr
  | [] => none
  | t :: rest =>
      if strIsDigit t = false then some (.parseError "Expected int value")
      else if strToNat t = 0 then some .assertionError
      else firstIntFailure rest

/-- `SparkNumericType.parse_range`: raise on the empty string
(`raise_if_empty`), else split on `RANGE_SEP = ","`. -/
def parse_range (s : String) : Except PyErr (List String) :=
  if s.length = 0 then .error (.parseError "Empty range argument")
  else .ok (pySplitComma s)

/-- `SparkIntType.get_maybe_range_from_str`: 1 token → point, 2 tokens →
pair, otherwise `raise_invalid`; tokens are cast left to right. -/
def SparkIntType.get_maybe_range_from_str (s : String) :
    Except PyErr PVal := do
  let range_list ← parse_range s
  match range_list with
  | [a] => do
      let x ← SparkIntType.cast_from_str a
      pure (.pint x)
  | [a, b] => do
      let x ← SparkIntType.cast_from_str a
      let y ← SparkIntType.cast_from_str b
      pure (.ptup2 x y)
  | _ => .error (.parseError "Invalid range argument")

/-- `SparkIntType.make_param_from_str`. -/
def SparkIntType.make_param_from_str (p : SparkParamObj) (s : String) :
    Except PyErr SparkParamObj := do
  let v ← SparkIntType.get_maybe_range_from_str s
  SparkIntType.init p.spark_name v p.desc

/-- `SparkMemoryType.cast_from_str`: `humanfriendly.parse_size(s, binary=True)`
(see `parse_size_chars`), with `InvalidSize` re-raised as
`SparkParamParseError`. -/
def SparkMemoryType.cast_from_str (s : String) : Except PyErr ℤ :=
  match parse_size s with
  | some n => .ok (n : ℤ)
  | none => .error (.parseError "Invalid memory size")

/-- `SparkMemoryType.get_maybe_range_from_str`: 1 token → point, 2 tokens →
triple with implicit `range_scale = 1`, 3 tokens → triple, otherwise
`raise_invalid`. -/
def SparkMemoryType.get_maybe_range_from_str (s : String) :
    Except PyErr PVal := do
  let range_list ← parse_range s
  match range_list with
  | [a] => do
      let x ← SparkMemoryType.cast_from_str a
      pure (.pint x)
  | [a, b] => do
      let x ← SparkMemoryType.cast_from_str a
      let y ← SparkMemoryType.cast_from_str b
      pure (.ptup3 x y 1)
  | [a, b, c] => do
      let x ← SparkMemoryType.cast_from_str a
      let y ← SparkMemoryType.cast_from_str b
      let z ← SparkMemoryType.cast_from_str c
      pure (.ptup3 x y z)
  | _ => .error (.parseError "Invalid range argument")

/-- `SparkMemoryType.make_param_from_str`. -/
def SparkMemoryType.make_param_from_str (p : SparkParamObj) (s : String) :
    Except PyErr SparkParamObj := do
  let v ← SparkMemoryType.get_maybe_range_from_str s
  SparkMemoryType.init p.spark_name v p.desc

/-- `SparkBooleanType.cast_from_str`: only case-insensitive
`"true"`/`"false"`. -/
def SparkBooleanType.cast_from_str (s : String) : Except PyErr Bool :=
  if pyLower s = "true" then .ok true
  else if pyLower s = "false" then .ok false
  else .error (.parseError "Invalid boolean type")

/-- `SparkBooleanType.make_param_from_str` (no range splitting). -/
def SparkBooleanType.make_param_from_str (p : SparkParamObj) (s : String) :
    Except PyErr SparkParamObj := do
  let b ← SparkBooleanType.cast_from_str s
  SparkBooleanType.init p.spark_name (.pbool b) p.desc

/-- `SparkStringType.make_param_from_str`. -/
def SparkStringType.make_param_from_str (p : SparkParamObj) (s : String) :
    Except PyErr SparkParamObj :=
  SparkStringType.init p.spark_name (.pstr s) p.desc

/-- `SparkMemoryType.get_scale`: `value[2]` for a tuple value, else `1`. -/
def SparkMemoryType.get_scale (p : SparkParamObj) : Except PyErr ℤ :=
  match p.value with
  | .ptup3 _ _ c => .ok c
  | .ptup2 _ _ => .error .attributeError
  | _ => .ok 1

/-- Claim-side invariant (for C7) relating a supplied value `v` to the
constructed parameter `p`:
`is_range` holds iff the stored value is a tuple with first < second;
a supplied tuple with equal endpoints collapses to the scalar point;
a supplied tuple with `start ≤ end` never yields a non-range tuple value;
and a range parameter stores the supplied tuple unchanged. -/
def rangeInvariant (v : PVal) (p : SparkParamObj) : Prop :=
  (p.is_range_val = true ↔
    PVal.isTuple p.value = true ∧ PVal.fstLtSnd p.value = true) ∧
  (∀ a b : ℤ, (v = .ptup2 a b ∨ ∃ c, v = .ptup3 a b c) → a = b →
    p.value = .pint a) ∧
  (∀ a b : ℤ, (v = .ptup2 a b ∨ ∃ c, v = .ptup3 a b c) → a ≤ b →
    p.is_range_val = false → PVal.isTuple p.value = false) ∧
  (p.is_range_val = true → p.value = v)

/-! ## spark_default_param.py

The registry parameters, as built by `SparkParam.mk_string` / `mk_int` /
`mk_memory` / `mk_boolean` (each calls the corresponding type constructor
with a concrete, assert-passing default; the CSV-derived description text is
irrelevant to every claim and abbreviated). -/

namespace SparkParam

def NAME : SparkParamObj :=
  paramInit .string "name" (.pstr "spark_program") false "Program name"

def CLASS : SparkParamObj :=
  paramInit .string "class" (.pstr "MainClass") false
    "Fully qualified main class name"

def MASTER : SparkParamObj :=
  paramInit .string "master" (.pstr "local[*]") false
    "Spark master type: local/yarn/mesos"

def DEPLOY_MODE : SparkParamObj :=
  paramInit .string "deploy-mode" (.pstr "client") false
    "Deployment mode: client/cluster"

def DRIVER_MEM : SparkParamObj :=
  paramInit .memory "driver-memory" (.pint 10485760) true
    "Amount of driver memory"

def EXECUTOR_MEM : SparkParamObj :=
  paramInit .memory "executor-memory" (.pint 10485760) true
    "Amount of executor memory"

def EXECUTOR_CORES : SparkParamObj :=
  paramInit .int "executor-cores" (.pint 2) true "Number of executor cores"

def MAX_EXECUTORS : SparkParamObj :=
  paramInit .int "spark.dynamicAllocation.maxExecutors" (.pint 2) true ""

def PARALLELISM : SparkParamObj :=
  paramInit .int "spark.default.parallelism" (.pint 10) true ""

def PARTITIONS : SparkParamObj :=
  paramInit .int "spark.sql.shuffle.partitions" (.pint 10) true ""

def EVENTLOG_DIR : SparkParamObj :=
  paramInit .string "spark.eventLog.dir" (.pstr "file:///tmp/spark-events")
    false ""

def JOIN_THRESH : SparkParamObj :=
  paramInit .memory "spark.sql.autoBroadcastJoinThreshold" (.pint 10485760)
    true ""

def YARN_MAX_ATTEMPTS : SparkParamObj :=
  paramInit .int "spark.yarn.maxAppAttempts" (.pint 1) true ""

end SparkParam

/-- `FLAG_TO_DIRECT_PARAM`: program flag → direct registry parameter. -/
def FLAG_TO_DIRECT_PARAM : Dict SparkParamObj :=
  [("name", SparkParam.NAME),
   ("class", SparkParam.CLASS),
   ("master", SparkParam.MASTER),
   ("deploy_mode", SparkParam.DEPLOY_MODE),
   ("driver_memory", SparkParam.DRIVER_MEM),
   ("executor_memory", SparkParam.EXECUTOR_MEM),
   ("executor_cores", SparkParam.EXECUTOR_CORES)]

/-- `FLAG_TO_CONF_PARAM`: program flag → tunable conf registry parameter. -/
def FLAG_TO_CONF_PARAM : Dict SparkParamObj :=
  [("max_executors", SparkParam.MAX_EXECUTORS),
   ("spark_parallelism", SparkParam.PARALLELISM),
   ("spark_partitions", SparkParam.PARTITIONS)]

/-! ## spark_cmd.py -/

/-- an object stored in a parameter dict handed to the command synthesizer:
a `SparkParamType` instance, or any other Python object (which lacks the
`.value` attribute). -/
inductive PyObj where
  | param (p : SparkParamObj)
  | notParam
  deriving DecidableEq, Repr

/-- `SparkSubmitCmd.__init__` state. -/
structure SparkSubmitCmd where
  direct_param_default : Dict SparkParamObj := []
  conf_defaults : Dict SparkParamObj := []
  fixed_param : String := ""
  deriving DecidableEq, Repr

/-- `SparkParamType.get_value_map`: key → `param.value`. -/
def get_value_map (d : Dict SparkParamObj) : Dict PVal :=
  d.map (fun kv => (kv.1, kv.2.value))

/-- `Util.format_size(param_val, 'k')` as `merge_params` applies it to a
memory parameter's value: any non-`int` value (a range tuple or a string)
raises `InvalidSize`; a Python `bool` counts as an `int` with value 0/1. -/
def formatMemoryVal : PVal → Except PyErr String
  | .pint n => Util.format_size (n : ℚ) "k"
  | .pbool b => Util.format_size (if b then (1 : ℚ) else 0) "k"
  | _ => .error (.invalidSize "Input bytes must be integral")

/-- the body of the `for flag, param in input_dict.items()` loop of
`SparkSubmitCmd.merge_params`: read `param.value` (`AttributeError` on a
non-`SparkParamType`), normalize a memory parameter's value through
`Util.format_size(param_val, 'k')`, then classify the flag into the direct or
conf accumulator keyed by `param.spark_name`; a flag in neither registry is
dropped. -/
def mergeStep (acc : Dict PVal × Dict PVal) (kv : String × PyObj) :
    Except PyErr (Dict PVal × Dict PVal) := do
  match kv.2 with
  | .notParam => .error .attributeError
  | .param p => do
    let param_val ←
      if p.kind = SparkKind.memory then do
        let s ← formatMemoryVal p.value
        pure (PVal.pstr s)
      else pure p.value
    if (dlookup kv.1 FLAG_TO_DIRECT_PARAM).isSome then
      pure (dictInsert acc.1 p.spark_name param_val, acc.2)
    else if (dlookup kv.1 FLAG_TO_CONF_PARAM).isSome then
      pure (acc.1, dictInsert acc.2 p.spark_name param_val)
    else
      pure acc

/-- `SparkSubmitCmd.merge_params`:
`input_dict = dict(ChainMap({}, tuner_cfg_dict, arg_dict))` (so the tuner
dict's entries win), one `mergeStep` per entry, then each accumulator is
layered over the instance defaults
(`dict(ChainMap({}, input_*, *_defaults))`). -/
def SparkSubmitCmd.merge_params (cmd : SparkSubmitCmd)
    (arg_dict tuner_cfg_dict : Dict PyObj) :
    Except PyErr (Dict PVal × Dict PVal) := do
  let input_dict := dictUpdate (dictUpdate [] arg_dict) tuner_cfg_dict
  let acc ← input_dict.foldlM mergeStep ([], [])
  pure (dictUpdate (get_value_map cmd.direct_param_default) acc.1,
        dictUpdate (get_value_map cmd.conf_defaults) acc.2)

/-- Claim-side companion of `mergeStep` (for C1): the value stored for a
parameter drawn from an input dict — a memory parameter's (integer) value
goes through `Util.format_size(value, 'k')`, every other value passes
through unchanged. -/
def procVal (p : SparkParamObj) : PVal :=
  if p.kind = SparkKind.memory then
    match p.value with
    | .pint n => .pstr (Util.format_size_loop (n : ℚ) "k" Util.UNIT_LADDER)
    | v => v
  else p.value

/-- a dict entry the merge loop can process without raising: a
`SparkParamType` whose value, when of memory kind, is an `int`. -/
def goodEntry (kv : String × PyObj) : Prop :=
  ∃ p, kv.2 = PyObj.param p ∧
    (p.kind = SparkKind.memory → ∃ n : ℤ, p.value = PVal.pint n)

/-- the registry (Spark) name a program flag resolves to: the direct
registry first, then the conf registry. -/
def canonicalName (flag : String) : Option String :=
  match dlookup flag FLAG_TO_DIRECT_PARAM with
  | some q => some q.spark_name
  | none => (dlookup flag FLAG_TO_CONF_PARAM).map (fun q => q.spark_name)

/-- a dict entry built the way the program builds them: the parameter stored
under a registry flag carries that flag's registry Spark name
(`make_param_from_str`/`make_param` preserve `spark_name`). -/
def namedEntry (kv : String × PyObj) : Prop :=
  ∀ p, kv.2 = PyObj.param p →
    ∀ sn, canonicalName kv.1 = some sn → p.spark_name = sn

/-- does this entry write the direct (`direct = true`) or conf accumulator
under spark name `s`, and with which value? -/
def entryHit (direct : Bool) (s : String) (kv : String × PyObj) :
    Option PVal :=
  match kv.2 with
  | .notParam => none
  | .param p =>
      if ((if direct then (dlookup kv.1 FLAG_TO_DIRECT_PARAM).isSome
           else !(dlookup kv.1 FLAG_TO_DIRECT_PARAM).isSome &&
             (dlookup kv.1 FLAG_TO_CONF_PARAM).isSome) &&
          p.spark_name == s) = true
      then some (procVal p) else none

/-- last-wins accumulation step: a hit by `g` overrides the accumulator. -/
def ollStep {γ δ : Type} (g : γ → Option δ) (acc : Option δ) (x : γ) :
    Option δ :=
  match g x with
  | some v => some v
  | none => acc

/-- the value of the last entry of `l` (in iteration order) that writes
spark name `s` into the chosen accumulator. -/
def lastHit (direct : Bool) (s : String) (l : Dict PyObj) : Option PVal :=
  l.foldl (ollStep (entryHit direct s)) none

/-- key match against one entry. -/
def keyHit (k : String) (kv : String × α) : Option α :=
  if kv.1 = k then some kv.2 else none

/-- the value of the last entry of `e` with key `k` (a raw association list
may repeat a key; Python dict construction keeps the last value). -/
def lastLookup (k : String) (e : Dict α) : Option α :=
  e.foldl (ollStep (keyHit k)) none

/-- reverse registry lookup: the flag whose registry parameter carries the
given Spark name. -/
def flagOfNameIn (reg : Dict SparkParamObj) (s : String) : Option String :=
  match reg.find? (fun kv => kv.2.spark_name == s) with
  | some kv => some kv.1
  | none => none

/-- is this flag classified into the conf partition by the merge loop? -/
def isConfFlag (flag : String) : Bool :=
  !(dlookup flag FLAG_TO_DIRECT_PARAM).isSome &&
    (dlookup flag FLAG_TO_CONF_PARAM).isSome

/-! ## tuner_cfg.py -/

/-- Python 2 `round`: half away from zero. -/
def pyRound (q : ℚ) : ℤ := if q < 0 then -⌊-q + 1 / 2⌋ else ⌊q + 1 / 2⌋

/-- Python 2 `cmp(a, b)`. -/
def pyCmp (a b : ℚ) : ℤ := if a < b then -1 else if a = b then 0 else 1

/-- `ScaledIntegerParameter` state after a successful construction. -/
structure ScaledIntegerParameter where
  name : String
  min_value : ℤ
  max_value : ℤ
  scaling : ℤ
  deriving DecidableEq, Repr

namespace ScaledIntegerParameter

/-- `ScaledIntegerParameter.SCALING = 1000`. -/
def SCALING : ℤ := 1000

/-- `ScaledIntegerParameter.__init__`:
`assert 0 < abs(scaling) <= abs(min_value), "Invalid scaling"`, followed by
the base `NumericParameter.__init__` of the external search library (imported
by the source, not part of this repository), modelled from its contract as
asserting ordered bounds `min_value <= max_value`. No sign condition relating
`scaling` to the range direction is checked anywhere. -/
def init (name : String) (min_value max_value scaling : ℤ) :
    Except PyErr ScaledIntegerParameter :=
  if ¬(0 < |scaling| ∧ |scaling| ≤ |min_value|) then .error .assertionError
  else if ¬(min_value ≤ max_value) then .error .assertionError
  else .ok ⟨name, min_value, max_value, scaling⟩

/-- `_scale(v) = (v - min_value) * SCALING / float(scaling)`
(explicit `float(...)`, so true division). -/
def _scale (p : ScaledIntegerParameter) (v : ℚ) : ℚ :=
  (v - (p.min_value : ℚ)) * (SCALING : ℚ) / (p.scaling : ℚ)

/-- `_unscale(v) = int(round(v * scaling / SCALING + min_value))` on the
float values `_scale` and the search engine supply (true division; `int` of
the integral-valued `round` result is that integer). -/
def _unscale (p : ScaledIntegerParameter) (v : ℚ) : ℤ :=
  pyRound (v * (p.scaling : ℚ) / (SCALING : ℚ) + (p.min_value : ℚ))

end ScaledIntegerParameter

/-- the two columns of a `resultsdb.models.Result` the objective reads. -/
structure RunResult where
  time : ℚ
  size : ℚ
  deriving DecidableEq, Repr

/-- `MinimizeTimeAndResource.__init__` state (tolerances for
`Util.isclose`). -/
structure MinimizeTimeAndResource where
  rel_tol : ℚ := 1 / 1000000000
  abs_tol : ℚ := 0
  deriving DecidableEq, Repr

namespace MinimizeTimeAndResource

/-- `result_compare`: `cmp` on `size` when the times are close,
else `cmp` on `time`. -/
def result_compare (o : MinimizeTimeAndResource) (result1 result2 : RunResult) :
    ℤ :=
  if Util.isclose result1.time result2.time o.rel_tol o.abs_tol then
    pyCmp result1.size result2.size
  else
    pyCmp result1.time result2.time

/-- `result_relative`: `Util.ratio` on `size` when the times are close,
else on `time`. -/
def result_relative (o : MinimizeTimeAndResource) (result1 result2 : RunResult) :
    PyFloat :=
  if Util.isclose result1.time result2.time o.rel_tol o.abs_tol then
    Util.ratioOf result1.size result2.size
  else
    Util.ratioOf result1.time result2.time

end MinimizeTimeAndResource

/-- which exit path one invocation of `call_program` takes: the subprocess
exits within its limit, the wall clock exceeds `limit` and the run is killed
(`killed = True`), or an exception escapes the monitoring loop. -/
inductive RunOutcome where
  | completes
  | timesOut
  | raisesExc
  deriving DecidableEq, Repr

/-- the run record `call_program` returns (stdout/stderr and the sampled
metrics are irrelevant to the claims and omitted). -/
structure CallResult where
  time : PyFloat
  timeout : Bool
  returncode : Option ℤ
  deriving DecidableEq, Repr

/-- Control-flow model of `MeasurementInterfaceExt.call_program`.

The subprocess, the sampling loop and the wall clock are abstracted into
parameters: `pid` is the id of the launched process, `t0`/`t1` the wall-clock
readings taken before launch and after the loop, `outcome` the exit path the
monitoring loop takes, and `returncode` the final `p.returncode`.  The shared
`self.pids` list — every mutation of which the source performs holding
`self.pid_lock`, modelled as an atomic state update — is threaded explicitly:
the pid is appended after launch; the `finally:` block
(`if p.pid in self.pids: self.pids.remove(p.pid)`, first occurrence) runs on
every exit path, including the exception path, on which the exception then
propagates.  On the normal path the record carries
`time = inf if killed else t1 - t0` and `timeout = killed`. -/
def MeasurementInterfaceExt.call_program (pid : ℕ) (t0 t1 : ℚ)
    (outcome : RunOutcome) (returncode : Option ℤ) (pids : List ℕ) :
    Except Unit CallResult × List ℕ :=
  let pids1 := pids ++ [pid]
  let pids2 := if pid ∈ pids1 then pids1.erase pid else pids1
  match outcome with
  | .raisesExc => (.error (), pids2)
  | .timesOut =>
      (.ok { time := .pinf, timeout := true, returncode := returncode },
       pids2)
  | .completes =>
      (.ok { time := .real (t1 - t0), timeout := false,
             returncode := returncode },
       pids2)

theorem dlookup_map_overwrite {α : Type} (a k : String) (v : α)
    (d : Dict α) (h : a ≠ k) :
    dlookup a (d.map (fun p => if p.1 = k then (k, v) else p)) = dlookup a d := by
  induction d with
  | nil => rfl
  | cons hd tl ih =>
    by_cases h1 : hd.1 = k
    · simp only [List.map_cons, if_pos h1, dlookup, if_neg (Ne.symm h),
        if_neg (h1 ▸ (Ne.symm h) : ¬hd.1 = a)]
      exact ih
    · simp only [List.map_cons, if_neg h1, dlookup]
      by_cases h2 : hd.1 = a
      · simp [h2]
      · simp only [if_neg h2]; exact ih

theorem dlookup_append {α : Type} (a : String) (d e : Dict α) :
    dlookup a (d ++ e) =
      match dlookup a d with
      | some v => some v
      | none => dlookup a e := by
  induction d with
  | nil => rfl
  | cons hd tl ih =>
    by_cases h : hd.1 = a
    · simp [dlookup, h]
    · simp only [List.cons_append, dlookup, if_neg h]; exact ih

theorem dlookup_map_overwrite_self {α : Type} (a : String) (v : α)
    (d : Dict α) (hmem : (dlookup a d).isSome) :
    dlookup a (d.map (fun p => if p.1 = a then (a, v) else p)) = some v := by
  induction d with
  | nil => simp [dlookup] at hmem
  | cons hd tl ih =>
    by_cases h1 : hd.1 = a
    · simp [List.map_cons, if_pos h1, dlookup]
    · simp only [dlookup, if_neg h1] at hmem
      simp only [List.map_cons, if_neg h1, dlookup, if_neg h1]
      exact ih hmem

theorem dlookup_dictInsert {α : Type} (d : Dict α) (k : String) (v : α)
    (a : String) :
    dlookup a (dictInsert d k v) = if a = k then some v else dlookup a d := by
  unfold dictInsert
  by_cases hmem : (dlookup k d).isSome
  · rw [if_pos hmem]
    by_cases h : a = k
    · subst h
      rw [if_pos rfl]
      exact dlookup_map_overwrite_self a v d hmem
    · rw [if_neg h]
      exact dlookup_map_overwrite a k v d h
  · rw [if_neg hmem, dlookup_append]
    by_cases h : a = k
    · subst h
      rcases hd : dlookup a d with _ | w
      · simp [dlookup]
      · exact absurd (by rw [hd]; rfl) hmem
    · rw [if_neg h]
      rcases hd : dlookup a d with _ | w
      · simp [dlookup, if_neg (fun hh : k = a => h hh.symm)]
      · simp

theorem dlookup_dictUpdate {α : Type} (d e : Dict α) (k : String) :
    dlookup k (dictUpdate d e) =
      match dlookup k (dictUpdate [] e) with
      | some v => some v
      | none => dlookup k d := by
  induction e generalizing d with
  | nil => simp [dictUpdate, dlookup]
  | cons hd tl ih =>
    show dlookup k (dictUpdate (dictInsert d hd.1 hd.2) tl) = _
    rw [ih]
    conv_rhs => rw [show dictUpdate [] (hd :: tl) =
      dictUpdate (dictInsert [] hd.1 hd.2) tl from rfl, ih]
    rcases h : dlookup k (dictUpdate [] tl) with _ | v
    · simp only
      rw [dlookup_dictInsert, dlookup_dictInsert]
      by_cases hk : k = hd.1 <;> simp [hk, dlookup]
    · simp

/-! ## Decimal rendering and re-parsing -/

theorem natDigitsGo_ne_nil_of (fuel : ℕ) :
    ∀ (n : ℕ) (acc : List Char), acc ≠ [] → natDigitsGo fuel n acc ≠ [] := by
  induction fuel with
  | zero => intro n acc hacc; exact hacc
  | succ f ih =>
    intro n acc hacc
    by_cases h : n = 0
    · simp only [natDigitsGo, if_pos h]; exact hacc
    · simp only [natDigitsGo, if_neg h]
      exact ih _ _ (by simp)

theorem natDigitsGo_all_digits (fuel : ℕ) :
    ∀ (n : ℕ) (acc : List Char), acc.all Char.isDigit = true →
      (natDigitsGo fuel n acc).all Char.isDigit = true := by
  induction fuel with
  | zero => intro n acc hacc; exact hacc
  | succ f ih =>
    intro n acc hacc
    by_cases h : n = 0
    · simp only [natDigitsGo, if_pos h]; exact hacc
    · simp only [natDigitsGo, if_neg h]
      refine ih _ _ ?_
      rw [List.all_cons, hacc, Bool.and_true]
      have h10 : n % 10 < 10 := Nat.mod_lt _ (by norm_num)
      obtain ⟨r, hr, hre⟩ : ∃ r, r < 10 ∧ n % 10 = r := ⟨_, h10, rfl⟩
      rw [hre]
      interval_cases r <;> decide

theorem natDigitsGo_foldl (fuel : ℕ) :
    ∀ (n : ℕ) (acc : List Char) (a : ℕ), n ≤ fuel →
      (natDigitsGo fuel n acc).foldl digitStep a =
        acc.foldl digitStep (a * pow10 n + n) := by
  induction fuel with
  | zero =>
    intro n acc a hn
    have h : n = 0 := Nat.le_zero.mp hn
    subst h
    show acc.foldl digitStep a = acc.foldl digitStep (a * pow10 0 + 0)
    rw [pow10, if_pos rfl]
    simp
  | succ f ih =>
    intro n acc a hn
    by_cases h : n = 0
    · subst h
      simp only [natDigitsGo, if_pos rfl]
      rw [pow10, if_pos rfl]
      simp
    · simp only [natDigitsGo, if_neg h]
      have hdiv : n / 10 ≤ f := by
        have : n / 10 < n := Nat.div_lt_self (Nat.pos_of_ne_zero h)
          (by norm_num)
        omega
      rw [ih (n / 10) _ _ hdiv, List.foldl_cons]
      congr 1
      show (a * pow10 (n / 10) + n / 10) * 10 +
          ((Char.ofNat (48 + n % 10)).toNat - 48) = a * pow10 n + n
      have hc : (Char.ofNat (48 + n % 10)).toNat = 48 + n % 10 := by
        have h10 : n % 10 < 10 := Nat.mod_lt _ (by norm_num)
        obtain ⟨r, hr, hre⟩ : ∃ r, r < 10 ∧ n % 10 = r := ⟨_, h10, rfl⟩
        rw [hre]; interval_cases r <;> decide
      have hp : pow10 n = pow10 (n / 10) * 10 := by
        conv_lhs => rw [pow10]
        rw [if_neg h]
      rw [hc, hp]
      have hdm : n / 10 * 10 + n % 10 = n := by
        have := Nat.div_add_mod n 10; omega
      calc (a * pow10 (n / 10) + n / 10) * 10 + (48 + n % 10 - 48)
          = a * (pow10 (n / 10) * 10) + (n / 10 * 10 + n % 10) := by
            have h48 : 48 + n % 10 - 48 = n % 10 := by omega
            rw [h48]; ring
        _ = a * (pow10 (n / 10) * 10) + n := by rw [hdm]

theorem decDigitsToNat_natToDecimal (n : ℕ) :
    decDigitsToNat (natToDecimal n) = some n := by
  by_cases h : n = 0
  · subst h; decide
  · rw [natToDecimal, if_neg h]
    have hne : natDigitsGo n n [] ≠ [] := by
      cases n with
      | zero => exact absurd rfl h
      | succ m =>
        simp only [natDigitsGo, if_neg (Nat.succ_ne_zero m)]
        exact natDigitsGo_ne_nil_of _ _ _ (by simp)
    have hdig : (natDigitsGo n n []).all Char.isDigit = true :=
      natDigitsGo_all_digits n n [] rfl
    rw [decDigitsToNat, if_neg (by simpa using hne), if_pos hdig,
      natDigitsGo_foldl n n [] 0 (le_refl n)]
    simp

theorem parse_size_render (m : ℕ) (u : Char) (f : ℕ)
    (hu : unitFactor u = some f) :
    parse_size_chars (natToDecimal m ++ [u]) = some (m * f) := by
  have h1 : (natToDecimal m ++ [u]).getLast? = some u := by
    simp [List.getLast?_concat]
  have h2 : (natToDecimal m ++ [u]).dropLast = natToDecimal m := by
    simp [List.dropLast_concat]
  rw [parse_size_chars]
  simp only [h1, h2, hu, decDigitsToNat_natToDecimal, Option.map_some']

theorem floor_natCast_div_natCast (n m : ℕ) (hm : 0 < m) :
    ⌊(n : ℚ) / (m : ℚ)⌋ = ((n / m : ℕ) : ℤ) := by
  have hmq : (0 : ℚ) < (m : ℚ) := by exact_mod_cast hm
  rw [Int.floor_eq_iff]
  constructor
  · rw [le_div_iff₀ hmq]
    exact_mod_cast Nat.div_mul_le_self n m
  · rw [div_lt_iff₀ hmq]
    have hlt : n < (n / m + 1) * m := by
      calc n = m * (n / m) + n % m := (Nat.div_add_mod n m).symm
        _ < m * (n / m) + m := by
            have := Nat.mod_lt n hm; omega
        _ = (n / m + 1) * m := by ring
    push_cast
    exact_mod_cast hlt

theorem intToDecimalStr_natCast (m : ℕ) :
    intToDecimalStr (m : ℤ) = String.mk (natToDecimal m) := by
  rw [intToDecimalStr, if_neg (not_lt.mpr (Int.natCast_nonneg m)),
    Int.natAbs_ofNat]

theorem string_mk_append (a b : List Char) :
    String.mk a ++ String.mk b = String.mk (a ++ b) := rfl

/-- combined helper: rendering `pyTrunc (n / m)` and a unit letter, then
re-parsing, yields the truncated value times the unit factor. -/
theorem parse_render_div (n m : ℕ) (hm : 0 < m) (u : Char) (f : ℕ)
    (hu : unitFactor u = some f) :
    parse_size (intToDecimalStr (pyTrunc ((n : ℚ) / (m : ℚ))) ++
      String.mk [u]) = some (n / m * f) := by
  have h0 : ¬((n : ℚ) / (m : ℚ) < 0) :=
    not_lt.mpr (by positivity)
  rw [pyTrunc, if_neg h0, floor_natCast_div_natCast n m hm,
    intToDecimalStr_natCast, string_mk_append]
  show parse_size_chars (natToDecimal (n / m) ++ [u]) = some (n / m * f)
  exact parse_size_render _ u f hu

theorem parse_render_pow (n k : ℕ) (u : Char)
    (hu : unitFactor u = some (1024 ^ k)) :
    parse_size (intToDecimalStr (pyTrunc ((n : ℚ) / (1024 : ℚ) ^ k)) ++
      String.mk [u]) = some (n / 1024 ^ k * 1024 ^ k) := by
  have h := parse_render_div n (1024 ^ k) (by positivity) u (1024 ^ k) hu
  rwa [show (((1024 ^ k : ℕ)) : ℚ) = (1024 : ℚ) ^ k by push_cast; ring] at h

theorem format_size_loop_nil (num : ℚ) (units : String) :
    Util.format_size_loop num units [] =
      intToDecimalStr (pyTrunc num) ++ "p" := rfl

theorem format_size_loop_cons (num : ℚ) (units x : String)
    (rest : List String) :
    Util.format_size_loop num units (x :: rest) =
      if Util.stopHere num units x then intToDecimalStr (pyTrunc num) ++ x
      else Util.format_size_loop (num / 1024) units rest := rfl

/-! ## C4 -/

/-- **C4 (amended).** Format-then-parse does not reproduce every byte count:
it reproduces `n` truncated at the unit the formatter stops at.  For every
`n` (below `2 ^ 53`, where the source's float division by `1024.0` is exact
and the rational model is faithful) there is a stopping exponent `k ≤ 5`
with `parse(format(n)) = (n / 1024 ^ k) * 1024 ^ k` (integer division), so
the round-trip is exact precisely when `1024 ^ k` divides `n`; and
`format_size` of a non-integral byte count fails with `InvalidSize` rather
than truncating. -/
theorem format_size_parse_size_roundtrip :
    (∀ n : ℕ, n < 2 ^ 53 →
      ∃ k : ℕ, k ≤ 5 ∧
        (Util.format_size (n : ℚ) "").toOption.bind parse_size
          = some (n / 1024 ^ k * 1024 ^ k) ∧
        (1024 ^ k ∣ n →
          (Util.format_size (n : ℚ) "").toOption.bind parse_size = some n)) ∧
    (∀ q : ℚ, q.den ≠ 1 → ∀ u : String,
      Util.format_size q u =
        Except.error (PyErr.invalidSize "Input bytes must be integral")) := by
  constructor
  · intro n _
    have hden : ((n : ℚ)).den = 1 := Rat.den_natCast n
    have hfmt : (Util.format_size (n : ℚ) "").toOption.bind parse_size
        = parse_size (Util.format_size_loop ((n : ℚ) / (1024 : ℚ) ^ 0) ""
            ["b", "k", "m", "g", "t"]) := by
      rw [Util.format_size, if_neg (by simp [hden])]
      norm_num [Except.toOption, Util.UNIT_LADDER]
    suffices h : ∃ k : ℕ, k ≤ 5 ∧
        (Util.format_size (n : ℚ) "").toOption.bind parse_size
          = some (n / 1024 ^ k * 1024 ^ k) by
      obtain ⟨k, hk, hmain⟩ := h
      exact ⟨k, hk, hmain, fun hd => by rw [hmain, Nat.div_mul_cancel hd]⟩
    rw [hfmt]
    by_cases h0 : Util.stopHere ((n : ℚ) / (1024 : ℚ) ^ 0) "" "b" = true
    · refine ⟨0, by norm_num, ?_⟩
      rw [format_size_loop_cons, if_pos h0]
      exact parse_render_pow n 0 'b' (by norm_num [unitFactor])
    rw [Bool.not_eq_true] at h0
    rw [format_size_loop_cons, if_neg (by rw [h0]; exact Bool.false_ne_true),
      show ((n : ℚ) / (1024 : ℚ) ^ 0) / 1024 = (n : ℚ) / (1024 : ℚ) ^ 1 by
        rw [div_div, ← pow_succ]]
    by_cases h1 : Util.stopHere ((n : ℚ) / (1024 : ℚ) ^ 1) "" "k" = true
    · refine ⟨1, by norm_num, ?_⟩
      rw [format_size_loop_cons, if_pos h1]
      exact parse_render_pow n 1 'k' (by norm_num [unitFactor])
    rw [Bool.not_eq_true] at h1
    rw [format_size_loop_cons, if_neg (by rw [h1]; exact Bool.false_ne_true),
      show ((n : ℚ) / (1024 : ℚ) ^ 1) / 1024 = (n : ℚ) / (1024 : ℚ) ^ 2 by
        rw [div_div, ← pow_succ]]
    by_cases h2 : Util.stopHere ((n : ℚ) / (1024 : ℚ) ^ 2) "" "m" = true
    · refine ⟨2, by norm_num, ?_⟩
      rw [format_size_loop_cons, if_pos h2]
      exact parse_render_pow n 2 'm' (by norm_num [unitFactor])
    rw [Bool.not_eq_true] at h2
    rw [format_size_loop_cons, if_neg (by rw [h2]; exact Bool.false_ne_true),
      show ((n : ℚ) / (1024 : ℚ) ^ 2) / 1024 = (n : ℚ) / (1024 : ℚ) ^ 3 by
        rw [div_div, ← pow_succ]]
    by_cases h3 : Util.stopHere ((n : ℚ) / (1024 : ℚ) ^ 3) "" "g" = true
    · refine ⟨3, by norm_num, ?_⟩
      rw [format_size_loop_cons, if_pos h3]
      exact parse_render_pow n 3 'g' (by norm_num [unitFactor])
    rw [Bool.not_eq_true] at h3
    rw [format_size_loop_cons, if_neg (by rw [h3]; exact Bool.false_ne_true),
      show ((n : ℚ) / (1024 : ℚ) ^ 3) / 1024 = (n : ℚ) / (1024 : ℚ) ^ 4 by
        rw [div_div, ← pow_succ]]
    by_cases h4 : Util.stopHere ((n : ℚ) / (1024 : ℚ) ^ 4) "" "t" = true
    · refine ⟨4, by norm_num, ?_⟩
      rw [format_size_loop_cons, if_pos h4]
      exact parse_render_pow n 4 't' (by norm_num [unitFactor])
    rw [Bool.not_eq_true] at h4
    rw [format_size_loop_cons, if_neg (by rw [h4]; exact Bool.false_ne_true),
      show ((n : ℚ) / (1024 : ℚ) ^ 4) / 1024 = (n : ℚ) / (1024 : ℚ) ^ 5 by
        rw [div_div, ← pow_succ]]
    refine ⟨5, by norm_num, ?_⟩
    rw [format_size_loop_nil]
    exact parse_render_pow n 5 'p' (by norm_num [unitFactor])
  · intro q hq u
    rw [Util.format_size, if_pos hq]

/-- **C4 witness.** The amended theorem applied at `n = 10240`
(where the round-trip is exact: `10240 = 10k`) and, for the failure clause,
at the non-integral byte count `3/2`. -/
theorem format_size_parse_size_roundtrip_witness :
    (∃ k : ℕ, k ≤ 5 ∧
      (Util.format_size ((10240 : ℕ) : ℚ) "").toOption.bind parse_size
        = some (10240 / 1024 ^ k * 1024 ^ k) ∧
      (1024 ^ k ∣ 10240 →
        (Util.format_size ((10240 : ℕ) : ℚ) "").toOption.bind parse_size
          = some 10240)) ∧
    Util.format_size (3 / 2 : ℚ) "" =
      Except.error (PyErr.invalidSize "Input bytes must be integral") :=
  ⟨format_size_parse_size_roundtrip.1 10240 (by norm_num),
   format_size_parse_size_roundtrip.2 (3 / 2) (by norm_num) ""⟩

/-- **C4 counterexample.** The claim's universal round-trip fails at
`n = 1536`: `format_size(1536) = "1k"`, which any correct unit-aware parser
reads back as `1024 ≠ 1536`. -/
theorem format_size_roundtrip_cex :
    Util.format_size (1536 : ℚ) "" = Except.ok "1k" ∧
    parse_size "1k" = some 1024 ∧ (1024 : ℕ) ≠ 1536 := by
  refine ⟨?_, by decide, by decide⟩
  have hden : (1536 : ℚ).den = 1 := by norm_num
  rw [Util.format_size, if_neg (by simp [hden])]
  rw [show Util.UNIT_LADDER = ["b", "k", "m", "g", "t"] from rfl]
  have h0 : Util.stopHere (1536 : ℚ) "" "b" = false := by
    rw [Util.stopHere]
    norm_num [hden]
    decide
  rw [format_size_loop_cons, if_neg (by rw [h0]; exact Bool.false_ne_true)]
  rw [show (1536 : ℚ) / 1024 = 3 / 2 by norm_num]
  have h1 : Util.stopHere (3 / 2 : ℚ) "" "k" = true := by
    rw [Util.stopHere]
    norm_num
  rw [format_size_loop_cons, if_pos h1]
  have ht : pyTrunc (3 / 2 : ℚ) = 1 := by
    rw [pyTrunc, if_neg (by norm_num)]
    rw [Int.floor_eq_iff]
    constructor <;> norm_num
  rw [ht]
  rfl


/-! ## C3 -/

/-- **C3.** `result_compare` compares the secondary `size` metric exactly when
the times are within the `(rel_tol, abs_tol)` tolerance
`|a.time - b.time| <= max(rel_tol * max(|a.time|, |b.time|), abs_tol)` and
the times otherwise; `result_relative` applies the same gate and returns the
`Util.ratio` of the selected metric, whose value on the (nonnegative) run
metrics is `nan` for `0/0` and `+inf` for a nonzero numerator over zero.
At the default tolerances: `(time=2, size=3)` vs itself compares `0` with
relative `1`; `(2,3)` vs `(1,3)` compares `1` (worse) with relative `2`;
`(0,0)` vs `(0,0)` has relative `nan`. -/
theorem result_compare_relative_spec :
    (∀ (o : MinimizeTimeAndResource) (a b : RunResult),
      MinimizeTimeAndResource.result_compare o a b =
        if |a.time - b.time| ≤ max (o.rel_tol * max |a.time| |b.time|) o.abs_tol
        then pyCmp a.size b.size
        else pyCmp a.time b.time) ∧
    (∀ (o : MinimizeTimeAndResource) (a b : RunResult),
      MinimizeTimeAndResource.result_relative o a b =
        if |a.time - b.time| ≤ max (o.rel_tol * max |a.time| |b.time|) o.abs_tol
        then Util.ratioOf a.size b.size
        else Util.ratioOf a.time b.time) ∧
    (∀ x y : ℚ, (x = 0 → y = 0 → Util.ratioOf x y = .nan) ∧
      (0 ≤ x → x ≠ 0 → y = 0 → Util.ratioOf x y = .pinf)) ∧
    (MinimizeTimeAndResource.result_compare {} ⟨2, 3⟩ ⟨2, 3⟩ = 0 ∧
     MinimizeTimeAndResource.result_relative {} ⟨2, 3⟩ ⟨2, 3⟩ = .real 1 ∧
     MinimizeTimeAndResource.result_compare {} ⟨2, 3⟩ ⟨1, 3⟩ = 1 ∧
     MinimizeTimeAndResource.result_relative {} ⟨2, 3⟩ ⟨1, 3⟩ = .real 2 ∧
     MinimizeTimeAndResource.result_relative {} ⟨0, 0⟩ ⟨0, 0⟩ = .nan) := by
  refine ⟨?_, ?_, ?_, ?_, ?_, ?_, ?_, ?_⟩
  · intro o a b
    simp only [MinimizeTimeAndResource.result_compare, Util.isclose,
      decide_eq_true_eq]
  · intro o a b
    simp only [MinimizeTimeAndResource.result_relative, Util.isclose,
      decide_eq_true_eq]
  · intro x y
    constructor
    · intro hx hy
      rw [Util.ratioOf, if_pos hy, if_neg (by rw [hx]; exact lt_irrefl 0),
        if_neg (by rw [hx]; exact lt_irrefl 0)]
    · intro hx0 hxne hy
      rw [Util.ratioOf, if_pos hy, if_pos (lt_of_le_of_ne hx0 (Ne.symm hxne))]
  · rw [MinimizeTimeAndResource.result_compare,
      if_pos (by rw [Util.isclose]; norm_num)]
    norm_num [pyCmp]
  · rw [MinimizeTimeAndResource.result_relative,
      if_pos (by rw [Util.isclose]; norm_num)]
    norm_num [Util.ratioOf]
  · rw [MinimizeTimeAndResource.result_compare,
      if_neg (by rw [Util.isclose]; norm_num)]
    norm_num [pyCmp]
  · rw [MinimizeTimeAndResource.result_relative,
      if_neg (by rw [Util.isclose]; norm_num)]
    norm_num [Util.ratioOf]
  · rw [MinimizeTimeAndResource.result_relative,
      if_pos (by rw [Util.isclose]; norm_num)]
    norm_num [Util.ratioOf]

/-- **C3 witness.** The ratio clauses applied at concrete metric values
`0/0` and `1/0`. -/
theorem result_compare_relative_spec_witness :
    Util.ratioOf 0 0 = .nan ∧ Util.ratioOf 1 0 = .pinf :=
  ⟨(result_compare_relative_spec.2.2.1 0 0).1 rfl rfl,
   (result_compare_relative_spec.2.2.1 1 0).2 (by norm_num) (by norm_num) rfl⟩

/-! ## C8 -/

/-- **C8.** The scaled adapter's maps are
`_scale(v) = (v - min) * 1000 / scale` (with `SCALING = 1000`) and — on the
nonnegative products and bounds the search domain supplies —
`_unscale(v) = round(v * scale / 1000) + min`; at
`min = 1000, max = 5000, scale = 500` the parameter constructs,
`_scale(2000) = 2000`, and `_unscale(_scale(2000))` is within one unit of
`2000`. -/
theorem scaled_parameter_maps :
    ScaledIntegerParameter.SCALING = 1000 ∧
    (∀ (p : ScaledIntegerParameter) (v : ℚ),
      p._scale v = (v - (p.min_value : ℚ)) * 1000 / (p.scaling : ℚ)) ∧
    (∀ (p : ScaledIntegerParameter) (v : ℚ),
      0 ≤ p.min_value → 0 ≤ v * (p.scaling : ℚ) →
      p._unscale v = pyRound (v * (p.scaling : ℚ) / 1000) + p.min_value) ∧
    (ScaledIntegerParameter.init "a" 1000 5000 500 =
        Except.ok ⟨"a", 1000, 5000, 500⟩ ∧
      ScaledIntegerParameter._scale ⟨"a", 1000, 5000, 500⟩ 2000 = 2000 ∧
      |((ScaledIntegerParameter._unscale ⟨"a", 1000, 5000, 500⟩
          (ScaledIntegerParameter._scale ⟨"a", 1000, 5000, 500⟩ 2000) : ℤ) : ℚ)
        - 2000| ≤ 1) := by
  have hS : ((ScaledIntegerParameter.SCALING : ℤ) : ℚ) = 1000 := by
    norm_num [ScaledIntegerParameter.SCALING]
  refine ⟨rfl, ?_, ?_, ?_, ?_, ?_⟩
  · intro p v
    rw [ScaledIntegerParameter._scale, hS]
  · intro p v hmin hvs
    have hx : (0 : ℚ) ≤ v * (p.scaling : ℚ) / 1000 := by positivity
    have hminq : (0 : ℚ) ≤ (p.min_value : ℚ) := by exact_mod_cast hmin
    rw [ScaledIntegerParameter._unscale, hS]
    rw [pyRound, if_neg (not_lt.mpr (add_nonneg hx hminq))]
    rw [pyRound, if_neg (not_lt.mpr hx)]
    rw [show v * (p.scaling : ℚ) / 1000 + (p.min_value : ℚ) + 1 / 2 =
      (v * (p.scaling : ℚ) / 1000 + 1 / 2) + (p.min_value : ℚ) by ring]
    rw [Int.floor_add_int]
  · rw [ScaledIntegerParameter.init, if_neg (by norm_num), if_neg (by norm_num)]
  · rw [ScaledIntegerParameter._scale]
    norm_num [ScaledIntegerParameter.SCALING]
  · have hscale : ScaledIntegerParameter._scale ⟨"a", 1000, 5000, 500⟩ 2000
        = 2000 := by
      rw [ScaledIntegerParameter._scale]
      norm_num [ScaledIntegerParameter.SCALING]
    rw [hscale, ScaledIntegerParameter._unscale]
    have harg : (2000 : ℚ) * ((500 : ℤ) : ℚ) /
        ((ScaledIntegerParameter.SCALING : ℤ) : ℚ) + ((1000 : ℤ) : ℚ)
        = 2000 := by
      norm_num [ScaledIntegerParameter.SCALING]
    rw [harg, pyRound, if_neg (by norm_num)]
    have hf : ⌊(2000 : ℚ) + 1 / 2⌋ = 2000 := by
      rw [Int.floor_eq_iff]
      constructor <;> norm_num
    rw [hf]
    norm_num

/-- **C8 witness.** The `_unscale` formula clause applied at the concrete
parameter `(min, max, scale) = (1000, 5000, 500)` and `v = 2000`. -/
theorem scaled_parameter_maps_witness :
    ScaledIntegerParameter._unscale ⟨"a", 1000, 5000, 500⟩ 2000 =
      pyRound ((2000 : ℚ) * ((500 : ℤ) : ℚ) / 1000) + 1000 :=
  scaled_parameter_maps.2.2.1 ⟨"a", 1000, 5000, 500⟩ 2000 (by norm_num)
    (by norm_num)

/-! ## C9 -/

/-- **C9 (amended).** Construction fails for a zero scale and whenever
`|scale| > |min|`; it also fails for `min > max` (regardless of scale sign,
via the base class's ordered-bounds assert); and it succeeds whenever
`0 < |scale| ≤ |min|` and `min ≤ max` — in particular no scale-sign
condition is checked, so `min = max` with a negative scale constructs. -/
theorem scaled_parameter_init_conditions :
    (∀ (name : String) (mn mx : ℤ),
      ScaledIntegerParameter.init name mn mx 0 = .error .assertionError) ∧
    (∀ (name : String) (mn mx sc : ℤ), |mn| < |sc| →
      ScaledIntegerParameter.init name mn mx sc = .error .assertionError) ∧
    (∀ (name : String) (mn mx sc : ℤ), mx < mn →
      ScaledIntegerParameter.init name mn mx sc = .error .assertionError) ∧
    (∀ (name : String) (mn mx sc : ℤ), 0 < |sc| → |sc| ≤ |mn| → mn ≤ mx →
      ScaledIntegerParameter.init name mn mx sc = .ok ⟨name, mn, mx, sc⟩) := by
  refine ⟨?_, ?_, ?_, ?_⟩
  · intro name mn mx
    rw [ScaledIntegerParameter.init, if_pos (by norm_num)]
  · intro name mn mx sc h
    rw [ScaledIntegerParameter.init, if_pos (by omega)]
  · intro name mn mx sc h
    by_cases hc : 0 < |sc| ∧ |sc| ≤ |mn|
    · rw [ScaledIntegerParameter.init, if_neg (not_not_intro hc),
        if_pos (not_le.mpr h)]
    · rw [ScaledIntegerParameter.init, if_pos hc]
  · intro name mn mx sc h1 h2 h3
    rw [ScaledIntegerParameter.init, if_neg (not_not_intro ⟨h1, h2⟩),
      if_neg (not_not_intro h3)]

/-- **C9 witness.** The amended clauses applied at concrete parameters:
scale `0` fails, `|20| > |3|` fails, `max < min` fails, and
`(30, 100, 20)` constructs. -/
theorem scaled_parameter_init_conditions_witness :
    ScaledIntegerParameter.init "a" 1 2 0 = .error .assertionError ∧
    ScaledIntegerParameter.init "a" 3 1000 20 = .error .assertionError ∧
    ScaledIntegerParameter.init "a" 5 1 5 = .error .assertionError ∧
    ScaledIntegerParameter.init "a" 30 100 20 = .ok ⟨"a", 30, 100, 20⟩ :=
  ⟨scaled_parameter_init_conditions.1 "a" 1 2,
   scaled_parameter_init_conditions.2.1 "a" 3 1000 20 (by norm_num),
   scaled_parameter_init_conditions.2.2.1 "a" 5 1 5 (by norm_num),
   scaled_parameter_init_conditions.2.2.2 "a" 30 100 20 (by norm_num)
     (by norm_num) (by norm_num)⟩

/-- **C9 counterexample.** The claim says construction fails for
`min ≥ max` combined with an inverted (negative) scale sign; but
`ScaledIntegerParameter("a", 5, 5, -5)` constructs successfully. -/
theorem scaled_parameter_init_cex :
    ScaledIntegerParameter.init "a" 5 5 (-5) = Except.ok ⟨"a", 5, 5, -5⟩ := by
  rw [ScaledIntegerParameter.init, if_neg (by norm_num), if_neg (by norm_num)]



/-! ## Except bind reduction -/

theorem except_bind_error {α β : Type} (e : PyErr) (f : α → Except PyErr β) :
    (Except.error e : Except PyErr α) >>= f = Except.error e := rfl

theorem except_bind_ok {α β : Type} (a : α) (f : α → Except PyErr β) :
    (Except.ok a : Except PyErr α) >>= f = f a := rfl

theorem except_pure_bind {α β : Type} (a : α) (f : α → Except PyErr β) :
    (pure a : Except PyErr α) >>= f = f a := rfl

theorem splitCommaAux_ne_nil (cs : List Char) :
    ∀ cur, splitCommaAux cs cur ≠ [] := by
  induction cs with
  | nil => intro cur; simp [splitCommaAux]
  | cons c rest ih =>
    intro cur
    by_cases hc : c = ','
    · simp [splitCommaAux, hc]
    · simp only [splitCommaAux, if_neg hc]
      exact ih _

theorem pySplitComma_ne_nil (s : String) : pySplitComma s ≠ [] :=
  splitCommaAux_ne_nil s.data []

/-! ## C6 -/

/-- **C6.** Token count maps to value shape: on an integer parameter
`parse("4,6")` yields the range `(4,6)` with `is_range = true` and
`parse("4,4")` the degenerate point `4` with `is_range = false`; on a
memory-size parameter `parse("4k,8k,2k")` yields the byte-normalized triple
`(4096, 8192, 2048)` and `parse("4,6")` yields `(4, 6, 1)` with implicit
scale `1`. -/
theorem parse_token_count_value_shapes :
    (SparkIntType.make_param_from_str SparkParam.EXECUTOR_CORES "4,6").map
        (fun p => (p.value, p.is_range_val))
      = Except.ok (PVal.ptup2 4 6, true) ∧
    (SparkIntType.make_param_from_str SparkParam.EXECUTOR_CORES "4,4").map
        (fun p => (p.value, p.is_range_val))
      = Except.ok (PVal.pint 4, false) ∧
    (SparkMemoryType.make_param_from_str SparkParam.EXECUTOR_MEM
        "4k,8k,2k").map (fun p => (p.value, p.is_range_val))
      = Except.ok (PVal.ptup3 4096 8192 2048, true) ∧
    (SparkMemoryType.make_param_from_str SparkParam.EXECUTOR_MEM "4,6").map
        (fun p => (p.value, p.is_range_val))
      = Except.ok (PVal.ptup3 4 6 1, true) :=
  ⟨by decide, by decide, by decide, by decide⟩

/-! ## C7 -/

theorem paramInit_rangeInvariant (kind : SparkKind) (name : String)
    (v : PVal) (desc : String) :
    rangeInvariant v (paramInit kind name v true desc) := by
  cases v with
  | pstr s => simp [rangeInvariant, paramInit, PVal.isTuple, PVal.fstLtSnd]
  | pbool b => simp [rangeInvariant, paramInit, PVal.isTuple, PVal.fstLtSnd]
  | pint n => simp [rangeInvariant, paramInit, PVal.isTuple, PVal.fstLtSnd]
  | ptup2 a b =>
    by_cases hab : a = b
    · subst hab
      simp [rangeInvariant, paramInit, PVal.isTuple, PVal.fstLtSnd]
    · by_cases hlt : a < b
      · simp [rangeInvariant, paramInit, PVal.isTuple, PVal.fstLtSnd,
          hab, hlt]
      · simp only [rangeInvariant, paramInit, PVal.isTuple, PVal.fstLtSnd,
          if_neg hab]
        refine ⟨by simp [hlt], ?_, ?_, by simp [hlt]⟩
        · intro x y hxy hxyeq
          rcases hxy with h2 | ⟨c, h3⟩
          · rw [PVal.ptup2.injEq] at h2
            exact absurd (h2.1 ▸ h2.2 ▸ hxyeq) hab
          · exact PVal.noConfusion h3
        · intro x y hxy hle _
          rcases hxy with h2 | ⟨c, h3⟩
          · rw [PVal.ptup2.injEq] at h2
            obtain ⟨hx, hy⟩ := h2
            subst hx; subst hy
            omega
          · exact PVal.noConfusion h3
  | ptup3 a b c =>
    by_cases hab : a = b
    · subst hab
      simp [rangeInvariant, paramInit, PVal.isTuple, PVal.fstLtSnd]
    · by_cases hlt : a < b
      · simp [rangeInvariant, paramInit, PVal.isTuple, PVal.fstLtSnd,
          hab, hlt]
      · simp only [rangeInvariant, paramInit, PVal.isTuple, PVal.fstLtSnd,
          if_neg hab]
        refine ⟨by simp [hlt], ?_, ?_, by simp [hlt]⟩
        · intro x y hxy hxyeq
          rcases hxy with h2 | ⟨d, h3⟩
          · exact PVal.noConfusion h2
          · rw [PVal.ptup3.injEq] at h3
            exact absurd (h3.1 ▸ h3.2.1 ▸ hxyeq) hab
        · intro x y hxy hle _
          rcases hxy with h2 | ⟨d, h3⟩
          · exact PVal.noConfusion h2
          · rw [PVal.ptup3.injEq] at h3
            obtain ⟨hx, hy, _⟩ := h3
            subst hx; subst hy
            omega

/-- **C7 (amended).** For every constructed parameter of any kind:
`is_range` is true iff the stored value is a tuple whose first component is
strictly below its second; a supplied tuple with equal endpoints collapses
to the scalar point; a supplied tuple with `start ≤ end` never leaves a
non-range parameter holding a tuple; and a range parameter keeps the
supplied tuple.  (A supplied tuple with `start > end` is retained as the
value of a *non-range* parameter, so "every non-range value is a scalar"
holds only under `start ≤ end`.)  Boolean and string parameters always
carry scalar, non-range values. -/
theorem param_construction_range_invariant :
    (∀ (name : String) (v : PVal) (desc : String) (p : SparkParamObj),
      SparkIntType.init name v desc = .ok p → rangeInvariant v p) ∧
    (∀ (name : String) (v : PVal) (desc : String) (p : SparkParamObj),
      SparkMemoryType.init name v desc = .ok p → rangeInvariant v p) ∧
    (∀ (name : String) (v : PVal) (desc : String) (p : SparkParamObj),
      SparkBooleanType.init name v desc = .ok p →
        p.is_range_val = false ∧ PVal.isTuple p.value = false) ∧
    (∀ (name : String) (v : PVal) (desc : String) (p : SparkParamObj),
      SparkStringType.init name v desc = .ok p →
        p.is_range_val = false ∧ PVal.isTuple p.value = false) := by
  refine ⟨?_, ?_, ?_, ?_⟩
  · intro name v desc p h
    cases v with
    | pstr s => exact absurd h (by simp [SparkIntType.init])
    | pbool b =>
      simp only [SparkIntType.init, Except.ok.injEq] at h
      exact h ▸ paramInit_rangeInvariant _ name _ desc
    | pint n =>
      simp only [SparkIntType.init, Except.ok.injEq] at h
      exact h ▸ paramInit_rangeInvariant _ name _ desc
    | ptup2 a b =>
      simp only [SparkIntType.init, Except.ok.injEq] at h
      exact h ▸ paramInit_rangeInvariant _ name _ desc
    | ptup3 a b c =>
      simp only [SparkIntType.init, Except.ok.injEq] at h
      exact h ▸ paramInit_rangeInvariant _ name _ desc
  · intro name v desc p h
    cases v with
    | pstr s => exact absurd h (by simp [SparkMemoryType.init])
    | pbool b =>
      simp only [SparkMemoryType.init, Except.ok.injEq] at h
      exact h ▸ paramInit_rangeInvariant _ name _ desc
    | pint n =>
      simp only [SparkMemoryType.init, Except.ok.injEq] at h
      exact h ▸ paramInit_rangeInvariant _ name _ desc
    | ptup2 a b =>
      simp only [SparkMemoryType.init, Except.ok.injEq] at h
      exact h ▸ paramInit_rangeInvariant _ name _ desc
    | ptup3 a b c =>
      simp only [SparkMemoryType.init, Except.ok.injEq] at h
      exact h ▸ paramInit_rangeInvariant _ name _ desc
  · intro name v desc p h
    cases v with
    | pbool b =>
      simp only [SparkBooleanType.init, Except.ok.injEq] at h
      subst h
      simp [paramInit, PVal.isTuple]
    | pstr s => exact absurd h (by simp [SparkBooleanType.init])
    | pint n => exact absurd h (by simp [SparkBooleanType.init])
    | ptup2 a b => exact absurd h (by simp [SparkBooleanType.init])
    | ptup3 a b c => exact absurd h (by simp [SparkBooleanType.init])
  · intro name v desc p h
    cases v with
    | pstr s =>
      simp only [SparkStringType.init, Except.ok.injEq] at h
      subst h
      simp [paramInit, PVal.isTuple]
    | pbool b => exact absurd h (by simp [SparkStringType.init])
    | pint n => exact absurd h (by simp [SparkStringType.init])
    | ptup2 a b => exact absurd h (by simp [SparkStringType.init])
    | ptup3 a b c => exact absurd h (by simp [SparkStringType.init])

/-- **C7 witness.** The invariant for the concretely constructed integer
range parameter over `(2, 3)`. -/
theorem param_construction_range_invariant_witness :
    rangeInvariant (PVal.ptup2 2 3)
      (paramInit SparkKind.int "x" (PVal.ptup2 2 3) true "") :=
  param_construction_range_invariant.1 "x" (PVal.ptup2 2 3) ""
    (paramInit SparkKind.int "x" (PVal.ptup2 2 3) true "") (by decide)

/-- **C7 counterexample.** `SparkIntType("x", (5, 3))` constructs a
parameter with `is_range = false` whose value is still the tuple `(5, 3)` —
not a scalar of the kind's native type, refuting the claimed invariant for a
supplied tuple with start > end. -/
theorem param_nonrange_tuple_value_cex :
    (SparkIntType.init "x" (PVal.ptup2 5 3) "").map
        (fun p => (p.is_range_val, p.value))
      = Except.ok (false, PVal.ptup2 5 3) ∧
    PVal.isTuple (PVal.ptup2 5 3) = true :=
  ⟨by decide, by decide⟩


/-! ## C5 -/

theorem cast_from_str_int_cases (t : String) :
    (strIsDigit t = false →
      SparkIntType.cast_from_str t
        = .error (.parseError "Expected int value")) ∧
    (strIsDigit t = true → strToNat t = 0 →
      SparkIntType.cast_from_str t = .error .assertionError) ∧
    (strIsDigit t = true → strToNat t ≠ 0 →
      SparkIntType.cast_from_str t = .ok (strToNat t : ℤ)) := by
  refine ⟨?_, ?_, ?_⟩
  · intro h
    rw [SparkIntType.cast_from_str,
      if_neg (by rw [h]; exact Bool.false_ne_true)]
  · intro h hz
    rw [SparkIntType.cast_from_str, if_pos h, if_neg (by rw [hz]; norm_num)]
  · intro h hz
    rw [SparkIntType.cast_from_str, if_pos h,
      if_pos (by exact_mod_cast Nat.pos_of_ne_zero hz)]

theorem mem_cast_error (t : String) (e : PyErr)
    (h : SparkMemoryType.cast_from_str t = .error e) :
    e = .parseError "Invalid memory size" := by
  rw [SparkMemoryType.cast_from_str] at h
  cases hp : parse_size t with
  | some n => rw [hp] at h; exact Except.noConfusion h
  | none =>
    rw [hp] at h
    exact (Except.error.inj h).symm

/-- **C5 (amended).** `make_param_from_str` raises `SparkParamParseError`
exactly when the string is empty, splits into more tokens than the kind
allows, or the first rejected token (scanning left to right) is a non-digit
string — but an all-digit token with value `0` fails the positivity `assert`
with an `AssertionError`, not a ParseError.  For the integer kind the result
is characterized by `firstIntFailure`; the boolean kind accepts exactly
case-insensitive `"true"`/`"false"` and raises ParseError otherwise; every
failure of the memory kind is a ParseError. -/
theorem make_param_from_str_failure_modes :
    (∀ (p : SparkParamObj) (s : String), s.length = 0 →
      SparkIntType.make_param_from_str p s
        = .error (.parseError "Empty range argument")) ∧
    (∀ (p : SparkParamObj) (s : String), 2 < (pySplitComma s).length →
      SparkIntType.make_param_from_str p s
        = .error (.parseError "Invalid range argument")) ∧
    (∀ (p : SparkParamObj) (s : String) (e : PyErr), s.length ≠ 0 →
      (pySplitComma s).length ≤ 2 →
      firstIntFailure (pySplitComma s) = some e →
      SparkIntType.make_param_from_str p s = .error e) ∧
    (∀ (p : SparkParamObj) (s : String), s.length ≠ 0 →
      (pySplitComma s).length ≤ 2 →
      firstIntFailure (pySplitComma s) = none →
      ∃ q, SparkIntType.make_param_from_str p s = .ok q) ∧
    (∀ (p : SparkParamObj) (s : String),
      SparkBooleanType.make_param_from_str p s =
        if pyLower s = "true" then
          .ok (paramInit .boolean p.spark_name (.pbool true) true p.desc)
        else if pyLower s = "false" then
          .ok (paramInit .boolean p.spark_name (.pbool false) true p.desc)
        else .error (.parseError "Invalid boolean type")) ∧
    (∀ (p : SparkParamObj) (s : String), s.length = 0 →
      SparkMemoryType.make_param_from_str p s
        = .error (.parseError "Empty range argument")) ∧
    (∀ (p : SparkParamObj) (s : String), 3 < (pySplitComma s).length →
      SparkMemoryType.make_param_from_str p s
        = .error (.parseError "Invalid range argument")) ∧
    (∀ (p : SparkParamObj) (s : String) (e : PyErr),
      SparkMemoryType.make_param_from_str p s = .error e →
      PyErr.isParseError e = true) := by
  refine ⟨?_, ?_, ?_, ?_, ?_, ?_, ?_, ?_⟩
  · intro p s h
    have h1 : parse_range s = .error (.parseError "Empty range argument") := by
      rw [parse_range, if_pos h]
    simp only [SparkIntType.make_param_from_str,
      SparkIntType.get_maybe_range_from_str, h1, except_bind_error]
  · intro p s h
    have hs : s.length ≠ 0 := by
      intro h0
      have hdata : s.data = [] :=
        List.length_eq_zero.mp h0
      rw [pySplitComma, hdata] at h
      simp [splitCommaAux] at h
    obtain ⟨t1, t2, t3, rest, hl⟩ :
        ∃ t1 t2 t3 rest, pySplitComma s = t1 :: t2 :: t3 :: rest := by
      rcases hsp : pySplitComma s with _ | ⟨a, _ | ⟨b, _ | ⟨c, r⟩⟩⟩
      · rw [hsp] at h; simp at h
      · rw [hsp] at h; simp at h
      · rw [hsp] at h; simp at h
      · exact ⟨a, b, c, r, rfl⟩
    have h1 : parse_range s = .ok (t1 :: t2 :: t3 :: rest) := by
      rw [parse_range, if_neg hs, hl]
    simp only [SparkIntType.make_param_from_str,
      SparkIntType.get_maybe_range_from_str, h1, except_bind_ok,
      except_bind_error]
  · intro p s e hs hlen hfif
    rcases hsp : pySplitComma s with _ | ⟨a, _ | ⟨b, rest⟩⟩
    · rw [hsp] at hfif; simp [firstIntFailure] at hfif
    · have h1 : parse_range s = .ok [a] := by
        rw [parse_range, if_neg hs, hsp]
      rw [hsp] at hfif
      by_cases hd : strIsDigit a = false
      · rw [firstIntFailure, if_pos hd] at hfif
        have he := Option.some.inj hfif
        simp only [SparkIntType.make_param_from_str,
          SparkIntType.get_maybe_range_from_str, h1, except_bind_ok,
          (cast_from_str_int_cases a).1 hd, except_bind_error, ← he]
      · rw [Bool.not_eq_false] at hd
        by_cases hz : strToNat a = 0
        · rw [firstIntFailure, if_neg (by simp [hd]), if_pos hz] at hfif
          have he := Option.some.inj hfif
          simp only [SparkIntType.make_param_from_str,
            SparkIntType.get_maybe_range_from_str, h1, except_bind_ok,
            (cast_from_str_int_cases a).2.1 hd hz, except_bind_error, ← he]
        · rw [firstIntFailure, if_neg (by simp [hd]), if_neg hz] at hfif
          simp [firstIntFailure] at hfif
    · rcases rest with _ | ⟨c, r⟩
      · have h1 : parse_range s = .ok [a, b] := by
          rw [parse_range, if_neg hs, hsp]
        rw [hsp] at hfif
        by_cases hd : strIsDigit a = false
        · rw [firstIntFailure, if_pos hd] at hfif
          have he := Option.some.inj hfif
          simp only [SparkIntType.make_param_from_str,
            SparkIntType.get_maybe_range_from_str, h1, except_bind_ok,
            (cast_from_str_int_cases a).1 hd, except_bind_error, ← he]
        · rw [Bool.not_eq_false] at hd
          by_cases hz : strToNat a = 0
          · rw [firstIntFailure, if_neg (by simp [hd]), if_pos hz] at hfif
            have he := Option.some.inj hfif
            simp only [SparkIntType.make_param_from_str,
              SparkIntType.get_maybe_range_from_str, h1, except_bind_ok,
              (cast_from_str_int_cases a).2.1 hd hz, except_bind_error, ← he]
          · rw [firstIntFailure, if_neg (by simp [hd]), if_neg hz] at hfif
            by_cases hd2 : strIsDigit b = false
            · rw [firstIntFailure, if_pos hd2] at hfif
              have he := Option.some.inj hfif
              simp only [SparkIntType.make_param_from_str,
                SparkIntType.get_maybe_range_from_str, h1, except_bind_ok,
                (cast_from_str_int_cases a).2.2 hd hz,
                (cast_from_str_int_cases b).1 hd2, except_bind_error, ← he]
            · rw [Bool.not_eq_false] at hd2
              by_cases hz2 : strToNat b = 0
              · rw [firstIntFailure, if_neg (by simp [hd2]),
                  if_pos hz2] at hfif
                have he := Option.some.inj hfif
                simp only [SparkIntType.make_param_from_str,
                  SparkIntType.get_maybe_range_from_str, h1, except_bind_ok,
                  (cast_from_str_int_cases a).2.2 hd hz,
                  (cast_from_str_int_cases b).2.1 hd2 hz2,
                  except_bind_error, ← he]
              · rw [firstIntFailure, if_neg (by simp [hd2]),
                  if_neg hz2] at hfif
                simp [firstIntFailure] at hfif
      · rw [hsp] at hlen; simp at hlen
  · intro p s hs hlen hfif
    rcases hsp : pySplitComma s with _ | ⟨a, _ | ⟨b, rest⟩⟩
    · exact absurd hsp (pySplitComma_ne_nil s)
    · have h1 : parse_range s = .ok [a] := by
        rw [parse_range, if_neg hs, hsp]
      rw [hsp] at hfif
      by_cases hd : strIsDigit a = false
      · rw [firstIntFailure, if_pos hd] at hfif
        exact Option.noConfusion hfif
      · rw [Bool.not_eq_false] at hd
        by_cases hz : strToNat a = 0
        · rw [firstIntFailure, if_neg (by simp [hd]), if_pos hz] at hfif
          exact Option.noConfusion hfif
        · refine ⟨paramInit .int p.spark_name (.pint (strToNat a : ℤ)) true
            p.desc, ?_⟩
          simp only [SparkIntType.make_param_from_str,
            SparkIntType.get_maybe_range_from_str, h1, except_bind_ok,
            (cast_from_str_int_cases a).2.2 hd hz, except_pure_bind,
            SparkIntType.init]
    · rcases rest with _ | ⟨c, r⟩
      · have h1 : parse_range s = .ok [a, b] := by
          rw [parse_range, if_neg hs, hsp]
        rw [hsp] at hfif
        by_cases hd : strIsDigit a = false
        · rw [firstIntFailure, if_pos hd] at hfif
          exact Option.noConfusion hfif
        · rw [Bool.not_eq_false] at hd
          by_cases hz : strToNat a = 0
          · rw [firstIntFailure, if_neg (by simp [hd]), if_pos hz] at hfif
            exact Option.noConfusion hfif
          · rw [firstIntFailure, if_neg (by simp [hd]), if_neg hz] at hfif
            by_cases hd2 : strIsDigit b = false
            · rw [firstIntFailure, if_pos hd2] at hfif
              exact Option.noConfusion hfif
            · rw [Bool.not_eq_false] at hd2
              by_cases hz2 : strToNat b = 0
              · rw [firstIntFailure, if_neg (by simp [hd2]),
                  if_pos hz2] at hfif
                exact Option.noConfusion hfif
              · refine ⟨paramInit .int p.spark_name
                  (.ptup2 (strToNat a : ℤ) (strToNat b : ℤ)) true p.desc, ?_⟩
                simp only [SparkIntType.make_param_from_str,
                  SparkIntType.get_maybe_range_from_str, h1, except_bind_ok,
                  (cast_from_str_int_cases a).2.2 hd hz,
                  (cast_from_str_int_cases b).2.2 hd2 hz2, except_pure_bind,
                  SparkIntType.init]
      · rw [hsp] at hlen; simp at hlen
  · intro p s
    by_cases h1 : pyLower s = "true"
    · rw [if_pos h1]
      simp only [SparkBooleanType.make_param_from_str,
        SparkBooleanType.cast_from_str, if_pos h1, except_bind_ok,
        SparkBooleanType.init]
    · rw [if_neg h1]
      by_cases h2 : pyLower s = "false"
      · rw [if_pos h2]
        simp only [SparkBooleanType.make_param_from_str,
          SparkBooleanType.cast_from_str, if_neg h1, if_pos h2,
          except_bind_ok, SparkBooleanType.init]
      · rw [if_neg h2]
        simp only [SparkBooleanType.make_param_from_str,
          SparkBooleanType.cast_from_str, if_neg h1, if_neg h2,
          except_bind_error]
  · intro p s h
    have h1 : parse_range s = .error (.parseError "Empty range argument") := by
      rw [parse_range, if_pos h]
    simp only [SparkMemoryType.make_param_from_str,
      SparkMemoryType.get_maybe_range_from_str, h1, except_bind_error]
  · intro p s h
    have hs : s.length ≠ 0 := by
      intro h0
      have hdata : s.data = [] := List.length_eq_zero.mp h0
      rw [pySplitComma, hdata] at h
      simp [splitCommaAux] at h
    obtain ⟨t1, t2, t3, t4, rest, hl⟩ :
        ∃ t1 t2 t3 t4 rest,
          pySplitComma s = t1 :: t2 :: t3 :: t4 :: rest := by
      rcases hsp : pySplitComma s with _ | ⟨a, _ | ⟨b, _ | ⟨c, _ | ⟨d, r⟩⟩⟩⟩
      · rw [hsp] at h; simp at h
      · rw [hsp] at h; simp at h
      · rw [hsp] at h; simp at h
      · rw [hsp] at h; simp at h
      · exact ⟨a, b, c, d, r, rfl⟩
    have h1 : parse_range s = .ok (t1 :: t2 :: t3 :: t4 :: rest) := by
      rw [parse_range, if_neg hs, hl]
    simp only [SparkMemoryType.make_param_from_str,
      SparkMemoryType.get_maybe_range_from_str, h1, except_bind_ok,
      except_bind_error]
  · intro p s e h
    by_cases hs : s.length = 0
    · have h1 : parse_range s
          = .error (.parseError "Empty range argument") := by
        rw [parse_range, if_pos hs]
      simp only [SparkMemoryType.make_param_from_str,
        SparkMemoryType.get_maybe_range_from_str, h1,
        except_bind_error] at h
      rw [← Except.error.inj h]
      rfl
    · have h1 : parse_range s = .ok (pySplitComma s) := by
        rw [parse_range, if_neg hs]
      rcases hsp : pySplitComma s with _ | ⟨a, _ | ⟨b, _ | ⟨c, _ | ⟨d, r⟩⟩⟩⟩ <;>
        rw [hsp] at h1 <;>
        simp only [SparkMemoryType.make_param_from_str,
          SparkMemoryType.get_maybe_range_from_str, h1, except_bind_ok,
          except_bind_error] at h
      · rw [← Except.error.inj h]; rfl
      · cases hca : SparkMemoryType.cast_from_str a with
        | error e1 =>
          rw [hca, except_bind_error] at h
          rw [← Except.error.inj h, mem_cast_error a e1 hca]
          rfl
        | ok n =>
          rw [hca, except_bind_ok] at h
          simp only [except_pure_bind, SparkMemoryType.init] at h
          exact Except.noConfusion h
      · cases hca : SparkMemoryType.cast_from_str a with
        | error e1 =>
          rw [hca, except_bind_error] at h
          rw [← Except.error.inj h, mem_cast_error a e1 hca]
          rfl
        | ok n =>
          rw [hca, except_bind_ok] at h
          cases hcb : SparkMemoryType.cast_from_str b with
          | error e2 =>
            rw [hcb, except_bind_error] at h
            rw [← Except.error.inj h, mem_cast_error b e2 hcb]
            rfl
          | ok m =>
            rw [hcb, except_bind_ok] at h
            simp only [except_pure_bind, SparkMemoryType.init] at h
            exact Except.noConfusion h
      · cases hca : SparkMemoryType.cast_from_str a with
        | error e1 =>
          rw [hca, except_bind_error] at h
          rw [← Except.error.inj h, mem_cast_error a e1 hca]
          rfl
        | ok n =>
          rw [hca, except_bind_ok] at h
          cases hcb : SparkMemoryType.cast_from_str b with
          | error e2 =>
            rw [hcb, except_bind_error] at h
            rw [← Except.error.inj h, mem_cast_error b e2 hcb]
            rfl
          | ok m =>
            rw [hcb, except_bind_ok] at h
            cases hcc : SparkMemoryType.cast_from_str c with
            | error e3 =>
              rw [hcc, except_bind_error] at h
              rw [← Except.error.inj h, mem_cast_error c e3 hcc]
              rfl
            | ok l =>
              rw [hcc, except_bind_ok] at h
              simp only [except_pure_bind, SparkMemoryType.init] at h
              exact Except.noConfusion h
      · rw [← Except.error.inj h]; rfl

/-- **C5 witness.** The failure-mode clauses applied at the claim's concrete
inputs on an integer parameter: `""`, `"4;5"`, `"4,5,oops"`, `"4,6,7"` raise
ParseError, and `"t"` on a boolean parameter raises ParseError. -/
theorem make_param_from_str_failure_modes_witness :
    SparkIntType.make_param_from_str SparkParam.EXECUTOR_CORES ""
      = .error (.parseError "Empty range argument") ∧
    SparkIntType.make_param_from_str SparkParam.EXECUTOR_CORES "4;5"
      = .error (.parseError "Expected int value") ∧
    SparkIntType.make_param_from_str SparkParam.EXECUTOR_CORES "4,5,oops"
      = .error (.parseError "Invalid range argument") ∧
    SparkIntType.make_param_from_str SparkParam.EXECUTOR_CORES "4,6,7"
      = .error (.parseError "Invalid range argument") ∧
    SparkBooleanType.make_param_from_str
        (paramInit SparkKind.boolean "x" (PVal.pbool true) true "") "t"
      = .error (.parseError "Invalid boolean type") := by
  refine ⟨?_, ?_, ?_, ?_, ?_⟩
  · exact make_param_from_str_failure_modes.1 SparkParam.EXECUTOR_CORES ""
      (by decide)
  · exact make_param_from_str_failure_modes.2.2.1 SparkParam.EXECUTOR_CORES
      "4;5" (.parseError "Expected int value") (by decide) (by decide)
      (by decide)
  · exact make_param_from_str_failure_modes.2.1 SparkParam.EXECUTOR_CORES
      "4,5,oops" (by decide)
  · exact make_param_from_str_failure_modes.2.1 SparkParam.EXECUTOR_CORES
      "4,6,7" (by decide)
  · rw [make_param_from_str_failure_modes.2.2.2.2.1
      (paramInit SparkKind.boolean "x" (PVal.pbool true) true "") "t"]
    decide

/-- **C5 counterexample.** The integer token `"0"` fails the positivity
`assert` with an `AssertionError`, not with the ParseError the claim
requires. -/
theorem int_token_zero_not_parse_error_cex :
    SparkIntType.make_param_from_str SparkParam.EXECUTOR_CORES "0"
      = Except.error PyErr.assertionError ∧
    PyErr.isParseError PyErr.assertionError = false :=
  ⟨by decide, by decide⟩


/-! ## Merge-fold infrastructure (C1, C10) -/

theorem foldl_lastOpt {γ δ : Type} (g : γ → Option δ) (l : List γ) :
    ∀ i : Option δ,
      l.foldl (ollStep g) i =
      match l.foldl (ollStep g) none with
      | some v => some v
      | none => i := by
  induction l with
  | nil => intro i; rfl
  | cons x xs ih =>
    intro i
    rw [List.foldl_cons, List.foldl_cons, ih]
    conv_rhs => rw [ih]
    cases hres : xs.foldl (ollStep g) none with
    | none =>
      cases hg : g x with
      | none => simp [ollStep, hg]
      | some v => simp [ollStep, hg]
    | some w => rfl

theorem lastLookup_cons {α : Type} (k : String) (kv : String × α)
    (rest : Dict α) :
    lastLookup k (kv :: rest) =
      match lastLookup k rest with
      | some v => some v
      | none => keyHit k kv := by
  rw [lastLookup, List.foldl_cons]
  conv_rhs => rw [lastLookup]
  rw [foldl_lastOpt (keyHit k) rest]
  cases hres : rest.foldl (ollStep (keyHit k)) none with
  | none =>
    cases hk : keyHit k kv with
    | none => simp [ollStep, hk]
    | some v => simp [ollStep, hk]
  | some w => rfl

theorem lastHit_cons (direct : Bool) (s : String) (kv : String × PyObj)
    (rest : Dict PyObj) :
    lastHit direct s (kv :: rest) =
      match lastHit direct s rest with
      | some v => some v
      | none => entryHit direct s kv := by
  rw [lastHit, List.foldl_cons]
  conv_rhs => rw [lastHit]
  rw [foldl_lastOpt (entryHit direct s) rest]
  cases hres : rest.foldl (ollStep (entryHit direct s)) none with
  | none =>
    cases hk : entryHit direct s kv with
    | none => simp [ollStep, hk]
    | some v => simp [ollStep, hk]
  | some w => rfl

theorem lastLookup_map_self_cases {α : Type} (a : String) (v : α)
    (d : Dict α) :
    lastLookup a (d.map (fun p => if p.1 = a then (a, v) else p)) = none ∨
    lastLookup a (d.map (fun p => if p.1 = a then (a, v) else p)) = some v := by
  induction d with
  | nil => exact Or.inl rfl
  | cons hd tl ih =>
    rw [List.map_cons, lastLookup_cons]
    rcases ih with h | h
    · rw [h]
      by_cases h1 : hd.1 = a
      · rw [if_pos h1]
        exact Or.inr (by simp [keyHit])
      · rw [if_neg h1]
        simp [keyHit, h1]
    · rw [h]
      exact Or.inr rfl

theorem lastLookup_map_overwrite_self {α : Type} (a : String) (v : α)
    (d : Dict α) (hmem : (dlookup a d).isSome) :
    lastLookup a (d.map (fun p => if p.1 = a then (a, v) else p)) = some v := by
  induction d with
  | nil => simp [dlookup] at hmem
  | cons hd tl ih =>
    rw [List.map_cons, lastLookup_cons]
    by_cases h1 : hd.1 = a
    · rcases lastLookup_map_self_cases a v tl with h | h
      · rw [h, if_pos h1]
        simp [keyHit]
      · rw [h]
    · simp only [dlookup, if_neg h1] at hmem
      rw [ih hmem]

theorem lastLookup_map_other {α : Type} (k a : String) (v : α) (d : Dict α)
    (h : k ≠ a) :
    lastLookup k (d.map (fun p => if p.1 = a then (a, v) else p)) =
      lastLookup k d := by
  induction d with
  | nil => rfl
  | cons hd tl ih =>
    rw [List.map_cons, lastLookup_cons, lastLookup_cons, ih]
    rcases lastLookup k tl with _ | w
    · by_cases h1 : hd.1 = a
      · rw [if_pos h1]
        have ha : ¬(a = k) := fun hh => h hh.symm
        have hb : ¬(hd.1 = k) := fun hh => ha (h1 ▸ hh)
        simp only [keyHit, if_neg ha, if_neg hb]
      · rw [if_neg h1]
    · rfl

theorem lastLookup_append {α : Type} (k : String) (d e : Dict α) :
    lastLookup k (d ++ e) =
      match lastLookup k e with
      | some v => some v
      | none => lastLookup k d := by
  induction d with
  | nil =>
    rw [List.nil_append]
    cases hres : lastLookup k e with
    | none => rfl
    | some v => rfl
  | cons hd tl ih =>
    rw [List.cons_append, lastLookup_cons, ih, lastLookup_cons]
    rcases lastLookup k e with _ | v
    · rfl
    · rfl

theorem lastLookup_dictInsert {α : Type} (d : Dict α) (a : String) (v : α)
    (k : String) :
    lastLookup k (dictInsert d a v) =
      if k = a then some v else lastLookup k d := by
  unfold dictInsert
  by_cases hmem : (dlookup a d).isSome
  · rw [if_pos hmem]
    by_cases h : k = a
    · subst h
      rw [if_pos rfl]
      exact lastLookup_map_overwrite_self k v d hmem
    · rw [if_neg h]
      exact lastLookup_map_other k a v d h
  · rw [if_neg hmem, lastLookup_append]
    by_cases h : k = a
    · subst h
      simp [lastLookup, ollStep, keyHit]
    · rw [if_neg h]
      have ha : ¬(a = k) := fun hh => h hh.symm
      simp [lastLookup, ollStep, keyHit, ha]

theorem lastLookup_dictUpdate {α : Type} (d e : Dict α) (k : String) :
    lastLookup k (dictUpdate d e) =
      match lastLookup k e with
      | some v => some v
      | none => lastLookup k d := by
  induction e generalizing d with
  | nil => simp [dictUpdate, lastLookup]
  | cons kv rest ih =>
    show lastLookup k (dictUpdate (dictInsert d kv.1 kv.2) rest) = _
    rw [ih, lastLookup_cons, lastLookup_dictInsert]
    rcases lastLookup k rest with _ | v
    · simp only [keyHit]
      by_cases h : k = kv.1
      · rw [if_pos h, if_pos (show kv.1 = k from h.symm)]
      · rw [if_neg h, if_neg (fun hh : kv.1 = k => h hh.symm)]
    · rfl

theorem dlookup_dictUpdate_last {α : Type} (d e : Dict α) (k : String) :
    dlookup k (dictUpdate d e) =
      match lastLookup k e with
      | some v => some v
      | none => dlookup k d := by
  induction e generalizing d with
  | nil => simp [dictUpdate, lastLookup]
  | cons kv rest ih =>
    show dlookup k (dictUpdate (dictInsert d kv.1 kv.2) rest) = _
    rw [ih, lastLookup_cons, dlookup_dictInsert]
    rcases lastLookup k rest with _ | v
    · simp only [keyHit]
      by_cases h : k = kv.1
      · rw [if_pos h, if_pos (show kv.1 = k from h.symm)]
      · rw [if_neg h, if_neg (fun hh : kv.1 = k => h hh.symm)]
    · rfl

theorem mem_dictInsert {α : Type} (d : Dict α) (a : String) (v : α)
    (kv : String × α) (h : kv ∈ dictInsert d a v) :
    kv ∈ d ∨ kv = (a, v) := by
  unfold dictInsert at h
  by_cases hmem : (dlookup a d).isSome
  · rw [if_pos hmem] at h
    obtain ⟨p, hp, hpe⟩ := List.mem_map.mp h
    by_cases h1 : p.1 = a
    · rw [if_pos h1] at hpe
      exact Or.inr hpe.symm
    · rw [if_neg h1] at hpe
      exact Or.inl (hpe ▸ hp)
  · rw [if_neg hmem] at h
    rcases List.mem_append.mp h with h1 | h2
    · exact Or.inl h1
    · exact Or.inr (List.mem_singleton.mp h2)

theorem mem_dictUpdate {α : Type} (d e : Dict α) (kv : String × α)
    (h : kv ∈ dictUpdate d e) : kv ∈ d ∨ kv ∈ e := by
  induction e generalizing d with
  | nil => exact Or.inl h
  | cons x rest ih =>
    rcases ih (dictInsert d x.1 x.2) h with h1 | h2
    · rcases mem_dictInsert d x.1 x.2 kv h1 with h3 | h4
      · exact Or.inl h3
      · right
        rw [h4]
        exact List.mem_cons_self _ _
    · exact Or.inr (List.mem_cons_of_mem _ h2)


theorem direct_registry_cases (g : String) (q : SparkParamObj)
    (h : dlookup g FLAG_TO_DIRECT_PARAM = some q) :
    flagOfNameIn FLAG_TO_DIRECT_PARAM q.spark_name = some g ∧
    canonicalName g = some q.spark_name ∧
    (dlookup g FLAG_TO_DIRECT_PARAM).isSome = true := by
  rw [FLAG_TO_DIRECT_PARAM] at h
  simp only [dlookup] at h
  split_ifs at h with h1 h2 h3 h4 h5 h6 h7
  all_goals first
    | exact Option.noConfusion h
    | (subst_vars; rw [← Option.some.inj h]; decide)

theorem conf_registry_cases (g : String) (q : SparkParamObj)
    (h : dlookup g FLAG_TO_CONF_PARAM = some q) :
    flagOfNameIn FLAG_TO_CONF_PARAM q.spark_name = some g ∧
    canonicalName g = some q.spark_name ∧
    dlookup g FLAG_TO_DIRECT_PARAM = none ∧
    isConfFlag g = true := by
  rw [FLAG_TO_CONF_PARAM] at h
  simp only [dlookup] at h
  split_ifs at h with h1 h2 h3
  all_goals first
    | exact Option.noConfusion h
    | (subst_vars; rw [← Option.some.inj h]; decide)

theorem mergeStep_notParam (acc : Dict PVal × Dict PVal) (flag : String) :
    mergeStep acc (flag, PyObj.notParam) = .error .attributeError := rfl

theorem mergeStep_good (dp cp : Dict PVal) (flag : String) (p : SparkParamObj)
    (hmem : p.kind = SparkKind.memory → ∃ n : ℤ, p.value = PVal.pint n) :
    mergeStep (dp, cp) (flag, PyObj.param p) = .ok
      (if (dlookup flag FLAG_TO_DIRECT_PARAM).isSome then
        (dictInsert dp p.spark_name (procVal p), cp)
      else if (dlookup flag FLAG_TO_CONF_PARAM).isSome then
        (dp, dictInsert cp p.spark_name (procVal p))
      else (dp, cp)) := by
  by_cases hk : p.kind = SparkKind.memory
  · obtain ⟨n, hv⟩ := hmem hk
    have hfmt : formatMemoryVal p.value
        = .ok (Util.format_size_loop (n : ℚ) "k" Util.UNIT_LADDER) := by
      rw [hv]
      show Util.format_size (n : ℚ) "k" = _
      rw [Util.format_size, if_neg (by simp [Rat.den_intCast])]
    have hproc : procVal p
        = .pstr (Util.format_size_loop (n : ℚ) "k" Util.UNIT_LADDER) := by
      rw [procVal, if_pos hk, hv]
    simp only [mergeStep, if_pos hk, hfmt, except_bind_ok, except_pure_bind,
      hproc]
    split_ifs <;> rfl
  · simp only [mergeStep, if_neg hk, except_pure_bind, procVal]
    split_ifs <;> rfl

theorem foldlM_mergeStep (l : Dict PyObj) :
    ∀ dp cp : Dict PVal,
      (∀ kv ∈ l, goodEntry kv) →
      ∃ r : Dict PVal × Dict PVal,
        l.foldlM mergeStep (dp, cp) = .ok r ∧
        (∀ s, lastLookup s r.1 =
          match lastHit true s l with
          | some v => some v
          | none => lastLookup s dp) ∧
        (∀ s, lastLookup s r.2 =
          match lastHit false s l with
          | some v => some v
          | none => lastLookup s cp) ∧
        ((∀ kv ∈ l, isConfFlag kv.1 = false) → r.2 = cp) := by
  induction l with
  | nil =>
    intro dp cp _
    exact ⟨(dp, cp), rfl, fun s => rfl, fun s => rfl, fun _ => rfl⟩
  | cons kv rest ih =>
    intro dp cp hgood
    obtain ⟨p, hp, hm⟩ := hgood kv (List.mem_cons_self _ _)
    rcases kv with ⟨flag, obj⟩
    subst hp
    rw [List.foldlM_cons, mergeStep_good dp cp flag p hm, except_bind_ok]
    by_cases hdir : (dlookup flag FLAG_TO_DIRECT_PARAM).isSome
    · rw [if_pos hdir]
      obtain ⟨r, hr, hD, hC, hE⟩ :=
        ih (dictInsert dp p.spark_name (procVal p)) cp
          (fun kv2 h2 => hgood kv2 (List.mem_cons_of_mem _ h2))
      refine ⟨r, hr, ?_, ?_, ?_⟩
      · intro s
        rw [hD s, lastHit_cons]
        rcases lastHit true s rest with _ | v
        · rw [lastLookup_dictInsert]
          simp only [entryHit, hdir, Bool.true_and, if_true]
          by_cases hs : p.spark_name = s
          · simp [hs]
          · have hs2 : ¬(s = p.spark_name) := fun hh => hs hh.symm
            rw [if_neg hs2, if_neg (by simp [hs])]
        · rfl
      · intro s
        rw [hC s, lastHit_cons]
        rcases lastHit false s rest with _ | v
        · simp only [entryHit, hdir, Bool.not_true, Bool.false_and,
            Bool.false_eq_true, if_false]
        · rfl
      · intro hall
        exact hE (fun kv2 h2 => hall kv2 (List.mem_cons_of_mem _ h2))
    · by_cases hconf : (dlookup flag FLAG_TO_CONF_PARAM).isSome
      · rw [if_neg hdir, if_pos hconf]
        obtain ⟨r, hr, hD, hC, hE⟩ :=
          ih dp (dictInsert cp p.spark_name (procVal p))
            (fun kv2 h2 => hgood kv2 (List.mem_cons_of_mem _ h2))
        refine ⟨r, hr, ?_, ?_, ?_⟩
        · intro s
          rw [hD s, lastHit_cons]
          rcases lastHit true s rest with _ | v
          · rw [Bool.not_eq_true] at hdir
            simp [entryHit, hdir]
          · rfl
        · intro s
          rw [hC s, lastHit_cons]
          rcases lastHit false s rest with _ | v
          · rw [lastLookup_dictInsert]
            rw [Bool.not_eq_true] at hdir
            simp only [entryHit, hdir, hconf, Bool.not_false, Bool.true_and,
              if_false]
            by_cases hs : p.spark_name = s
            · simp [hs]
            · have hs2 : ¬(s = p.spark_name) := fun hh => hs hh.symm
              rw [if_neg hs2, if_neg (by simp [hs])]
          · rfl
        · intro hall
          exfalso
          have hcf := hall (flag, PyObj.param p) (List.mem_cons_self _ _)
          rw [isConfFlag] at hcf
          rw [Bool.not_eq_true] at hdir
          rw [hdir, hconf] at hcf
          simp at hcf
      · rw [if_neg hdir, if_neg hconf]
        obtain ⟨r, hr, hD, hC, hE⟩ :=
          ih dp cp (fun kv2 h2 => hgood kv2 (List.mem_cons_of_mem _ h2))
        refine ⟨r, hr, ?_, ?_, ?_⟩
        · intro s
          rw [hD s, lastHit_cons]
          rcases lastHit true s rest with _ | v
          · rw [Bool.not_eq_true] at hdir
            simp [entryHit, hdir]
          · rfl
        · intro s
          rw [hC s, lastHit_cons]
          rcases lastHit false s rest with _ | v
          · rw [Bool.not_eq_true] at hdir
            rw [Bool.not_eq_true] at hconf
            simp [entryHit, hdir, hconf]
          · rfl
        · intro hall
          exact hE (fun kv2 h2 => hall kv2 (List.mem_cons_of_mem _ h2))

theorem lastLookup_mem {α : Type} (k : String) (l : Dict α) (v : α)
    (h : lastLookup k l = some v) : (k, v) ∈ l := by
  induction l with
  | nil => simp [lastLookup] at h
  | cons kv rest ih =>
    rw [lastLookup_cons] at h
    rcases hres : lastLookup k rest with _ | w
    · rw [hres] at h
      rw [keyHit] at h
      by_cases h1 : kv.1 = k
      · rw [if_pos h1] at h
        have hv : kv.2 = v := Option.some.inj h
        have hkv : (k, v) = kv := Prod.ext h1.symm hv.symm
        rw [hkv]
        exact List.mem_cons_self _ _
      · rw [if_neg h1] at h
        exact Option.noConfusion h
    · rw [hres] at h
      exact List.mem_cons_of_mem _ (ih (hres.trans h))

theorem lastHit_direct_named (l : Dict PyObj)
    (hgood : ∀ kv ∈ l, goodEntry kv) (hnamed : ∀ kv ∈ l, namedEntry kv)
    (g : String) (q : SparkParamObj)
    (hq : dlookup g FLAG_TO_DIRECT_PARAM = some q) :
    lastHit true q.spark_name l =
      match lastLookup g l with
      | some (PyObj.param p) => some (procVal p)
      | some PyObj.notParam => none
      | none => none := by
  induction l with
  | nil => rfl
  | cons kv rest ih =>
    obtain ⟨p, hp, hm⟩ := hgood kv (List.mem_cons_self _ _)
    have hn := hnamed kv (List.mem_cons_self _ _)
    rcases kv with ⟨flag, obj⟩
    subst hp
    rw [lastHit_cons, lastLookup_cons,
      ih (fun kv2 h2 => hgood kv2 (List.mem_cons_of_mem _ h2))
        (fun kv2 h2 => hnamed kv2 (List.mem_cons_of_mem _ h2))]
    rcases hres : lastLookup g rest with _ | w
    · by_cases hf : flag = g
      · subst hf
        have hcanon := (direct_registry_cases flag q hq).2.1
        have hps : p.spark_name = q.spark_name := hn p rfl _ hcanon
        simp [entryHit, keyHit, hq, hps]
      · have hkh : keyHit g (flag, PyObj.param p) = none := by
          rw [keyHit, if_neg hf]
        by_cases hdir : (dlookup flag FLAG_TO_DIRECT_PARAM).isSome
        · obtain ⟨q2, hq2⟩ := Option.isSome_iff_exists.mp hdir
          have hc2 := direct_registry_cases flag q2 hq2
          have hps : p.spark_name = q2.spark_name := hn p rfl _ hc2.2.1
          have hne : ¬ p.spark_name = q.spark_name := by
            intro he
            have h2 : q2.spark_name = q.spark_name := hps ▸ he
            have hc1 := hc2.1
            rw [h2] at hc1
            exact hf (Option.some.inj
              (hc1.symm.trans (direct_registry_cases g q hq).1))
          simp [entryHit, hne, hkh]
        · rw [Bool.not_eq_true] at hdir
          simp [entryHit, hdir, hkh]
    · rcases w with p2 | _
      · rfl
      · have hmem := lastLookup_mem g rest _ hres
        obtain ⟨p3, hp3, _⟩ :=
          hgood (g, PyObj.notParam) (List.mem_cons_of_mem _ hmem)
        exact PyObj.noConfusion hp3

theorem lastHit_conf_named (l : Dict PyObj)
    (hgood : ∀ kv ∈ l, goodEntry kv) (hnamed : ∀ kv ∈ l, namedEntry kv)
    (g : String) (q : SparkParamObj)
    (hq : dlookup g FLAG_TO_CONF_PARAM = some q) :
    lastHit false q.spark_name l =
      match lastLookup g l with
      | some (PyObj.param p) => some (procVal p)
      | some PyObj.notParam => none
      | none => none := by
  induction l with
  | nil => rfl
  | cons kv rest ih =>
    obtain ⟨p, hp, hm⟩ := hgood kv (List.mem_cons_self _ _)
    have hn := hnamed kv (List.mem_cons_self _ _)
    rcases kv with ⟨flag, obj⟩
    subst hp
    rw [lastHit_cons, lastLookup_cons,
      ih (fun kv2 h2 => hgood kv2 (List.mem_cons_of_mem _ h2))
        (fun kv2 h2 => hnamed kv2 (List.mem_cons_of_mem _ h2))]
    rcases hres : lastLookup g rest with _ | w
    · have hcg := conf_registry_cases g q hq
      by_cases hf : flag = g
      · subst hf
        have hps : p.spark_name = q.spark_name := hn p rfl _ hcg.2.1
        simp [entryHit, keyHit, hq, hcg.2.2.1, hps]
      · have hkh : keyHit g (flag, PyObj.param p) = none := by
          rw [keyHit, if_neg hf]
        by_cases hdir : (dlookup flag FLAG_TO_DIRECT_PARAM).isSome
        · simp [entryHit, hdir, hkh]
        · by_cases hconf : (dlookup flag FLAG_TO_CONF_PARAM).isSome
          · obtain ⟨q2, hq2⟩ := Option.isSome_iff_exists.mp hconf
            have hc2 := conf_registry_cases flag q2 hq2
            have hps : p.spark_name = q2.spark_name := hn p rfl _ hc2.2.1
            have hne : ¬ p.spark_name = q.spark_name := by
              intro he
              have h2 : q2.spark_name = q.spark_name := hps ▸ he
              have hc1 := hc2.1
              rw [h2] at hc1
              exact hf (Option.some.inj (hc1.symm.trans hcg.1))
            simp [entryHit, hne, hkh]
          · rw [Bool.not_eq_true] at hdir
            rw [Bool.not_eq_true] at hconf
            simp [entryHit, hdir, hconf, hkh]
    · rcases w with p2 | _
      · rfl
      · have hmem := lastLookup_mem g rest _ hres
        obtain ⟨p3, hp3, _⟩ :=
          hgood (g, PyObj.notParam) (List.mem_cons_of_mem _ hmem)
        exact PyObj.noConfusion hp3

/-- a `namedEntry` reduces to a condition on the one stored parameter. -/
theorem namedEntry_of (flag : String) (p : SparkParamObj)
    (h : ∀ sn, canonicalName flag = some sn → p.spark_name = sn) :
    namedEntry (flag, PyObj.param p) := by
  intro p2 hp2 sn hsn
  cases hp2
  exact h sn hsn

/-! ## C1 -/

/-- **C1 (amended).** `merge_params` resolves each registry flag with
precedence tuner (search) dict > argument dict > instance defaults, over
input dicts whose entries are `SparkParamType`s (with `int` values when of
memory kind) registered under their flag's registry Spark name.  A value
drawn from either input dict is processed through `procVal` — a memory
value goes through `Util.format_size(value, 'k')` — but a value falling
back to the instance defaults enters the output map raw through
`get_value_map`, with no memory formatting; and when no input flag is
conf-registered, the conf output map is exactly the raw conf defaults
(so empty when they are empty). -/
theorem merge_params_precedence (cmd : SparkSubmitCmd)
    (arg_dict tuner_cfg_dict : Dict PyObj)
    (hga : ∀ kv ∈ arg_dict, goodEntry kv)
    (hna : ∀ kv ∈ arg_dict, namedEntry kv)
    (hgt : ∀ kv ∈ tuner_cfg_dict, goodEntry kv)
    (hnt : ∀ kv ∈ tuner_cfg_dict, namedEntry kv) :
    ∃ D C : Dict PVal,
      SparkSubmitCmd.merge_params cmd arg_dict tuner_cfg_dict =
        .ok (D, C) ∧
      (∀ g q p, dlookup g FLAG_TO_DIRECT_PARAM = some q →
        lastLookup g tuner_cfg_dict = some (PyObj.param p) →
        dlookup q.spark_name D = some (procVal p)) ∧
      (∀ g q p, dlookup g FLAG_TO_DIRECT_PARAM = some q →
        lastLookup g tuner_cfg_dict = none →
        lastLookup g arg_dict = some (PyObj.param p) →
        dlookup q.spark_name D = some (procVal p)) ∧
      (∀ g q, dlookup g FLAG_TO_DIRECT_PARAM = some q →
        lastLookup g tuner_cfg_dict = none →
        lastLookup g arg_dict = none →
        dlookup q.spark_name D =
          dlookup q.spark_name (get_value_map cmd.direct_param_default)) ∧
      (∀ g q p, dlookup g FLAG_TO_CONF_PARAM = some q →
        lastLookup g tuner_cfg_dict = some (PyObj.param p) →
        dlookup q.spark_name C = some (procVal p)) ∧
      (∀ g q p, dlookup g FLAG_TO_CONF_PARAM = some q →
        lastLookup g tuner_cfg_dict = none →
        lastLookup g arg_dict = some (PyObj.param p) →
        dlookup q.spark_name C = some (procVal p)) ∧
      (∀ g q, dlookup g FLAG_TO_CONF_PARAM = some q →
        lastLookup g tuner_cfg_dict = none →
        lastLookup g arg_dict = none →
        dlookup q.spark_name C =
          dlookup q.spark_name (get_value_map cmd.conf_defaults)) ∧
      ((∀ kv ∈ arg_dict, isConfFlag kv.1 = false) →
        (∀ kv ∈ tuner_cfg_dict, isConfFlag kv.1 = false) →
        C = get_value_map cmd.conf_defaults) := by
  have hgI : ∀ kv ∈ dictUpdate (dictUpdate [] arg_dict) tuner_cfg_dict,
      goodEntry kv := by
    intro kv hkv
    rcases mem_dictUpdate _ _ _ hkv with h1 | h2
    · rcases mem_dictUpdate _ _ _ h1 with h3 | h4
      · exact absurd h3 (List.not_mem_nil _)
      · exact hga kv h4
    · exact hgt kv h2
  have hnI : ∀ kv ∈ dictUpdate (dictUpdate [] arg_dict) tuner_cfg_dict,
      namedEntry kv := by
    intro kv hkv
    rcases mem_dictUpdate _ _ _ hkv with h1 | h2
    · rcases mem_dictUpdate _ _ _ h1 with h3 | h4
      · exact absurd h3 (List.not_mem_nil _)
      · exact hna kv h4
    · exact hnt kv h2
  obtain ⟨r, hr, hD, hC, hE⟩ :=
    foldlM_mergeStep (dictUpdate (dictUpdate [] arg_dict) tuner_cfg_dict)
      [] [] hgI
  refine ⟨dictUpdate (get_value_map cmd.direct_param_default) r.1,
    dictUpdate (get_value_map cmd.conf_defaults) r.2,
    ?_, ?_, ?_, ?_, ?_, ?_, ?_, ?_⟩
  · simp only [SparkSubmitCmd.merge_params]
    rw [hr, except_bind_ok]
    rfl
  · intro g q p hq htun
    have hIg : lastLookup g (dictUpdate (dictUpdate [] arg_dict)
        tuner_cfg_dict) = some (PyObj.param p) := by
      rw [lastLookup_dictUpdate, htun]
    rw [dlookup_dictUpdate_last, hD q.spark_name,
      lastHit_direct_named _ hgI hnI g q hq, hIg]
  · intro g q p hq htun harg
    have hIg : lastLookup g (dictUpdate (dictUpdate [] arg_dict)
        tuner_cfg_dict) = some (PyObj.param p) := by
      rw [lastLookup_dictUpdate, htun, lastLookup_dictUpdate, harg]
    rw [dlookup_dictUpdate_last, hD q.spark_name,
      lastHit_direct_named _ hgI hnI g q hq, hIg]
  · intro g q hq htun harg
    have hIg : lastLookup g (dictUpdate (dictUpdate [] arg_dict)
        tuner_cfg_dict) = none := by
      rw [lastLookup_dictUpdate, htun, lastLookup_dictUpdate, harg]
      rfl
    rw [dlookup_dictUpdate_last, hD q.spark_name,
      lastHit_direct_named _ hgI hnI g q hq, hIg]
    rfl
  · intro g q p hq htun
    have hIg : lastLookup g (dictUpdate (dictUpdate [] arg_dict)
        tuner_cfg_dict) = some (PyObj.param p) := by
      rw [lastLookup_dictUpdate, htun]
    rw [dlookup_dictUpdate_last, hC q.spark_name,
      lastHit_conf_named _ hgI hnI g q hq, hIg]
  · intro g q p hq htun harg
    have hIg : lastLookup g (dictUpdate (dictUpdate [] arg_dict)
        tuner_cfg_dict) = some (PyObj.param p) := by
      rw [lastLookup_dictUpdate, htun, lastLookup_dictUpdate, harg]
    rw [dlookup_dictUpdate_last, hC q.spark_name,
      lastHit_conf_named _ hgI hnI g q hq, hIg]
  · intro g q hq htun harg
    have hIg : lastLookup g (dictUpdate (dictUpdate [] arg_dict)
        tuner_cfg_dict) = none := by
      rw [lastLookup_dictUpdate, htun, lastLookup_dictUpdate, harg]
      rfl
    rw [dlookup_dictUpdate_last, hC q.spark_name,
      lastHit_conf_named _ hgI hnI g q hq, hIg]
    rfl
  · intro ha ht
    have hallI : ∀ kv ∈ dictUpdate (dictUpdate [] arg_dict) tuner_cfg_dict,
        isConfFlag kv.1 = false := by
      intro kv hkv
      rcases mem_dictUpdate _ _ _ hkv with h1 | h2
      · rcases mem_dictUpdate _ _ _ h1 with h3 | h4
        · exact absurd h3 (List.not_mem_nil _)
        · exact ha kv h4
      · exact ht kv h2
    rw [hE hallI]
    rfl

/-- `executor-cores` parameter set to `3` (for the C1 witness's arg dict). -/
def wCoresArg : SparkParamObj :=
  paramInit .int "executor-cores" (.pint 3) true ""

/-- `executor-cores` parameter set to `5` (for the C1 witness's tuner dict). -/
def wCoresTun : SparkParamObj :=
  paramInit .int "executor-cores" (.pint 5) true ""

/-- **C1 witness.** The amended theorem applied at the concrete command
`⟨[], [], ""⟩` with `executor_cores ↦ 3` in the argument dict and
`executor_cores ↦ 5` in the tuner dict: the tuner's value wins. -/
theorem merge_params_precedence_witness :
    ∃ D C : Dict PVal,
      SparkSubmitCmd.merge_params ⟨[], [], ""⟩
        [("executor_cores", PyObj.param wCoresArg)]
        [("executor_cores", PyObj.param wCoresTun)] = .ok (D, C) ∧
      dlookup "executor-cores" D = some (PVal.pint 5) := by
  have hga : ∀ kv ∈ [("executor_cores", PyObj.param wCoresArg)],
      goodEntry kv := by
    intro kv hkv
    rw [List.mem_singleton] at hkv
    subst hkv
    exact ⟨wCoresArg, rfl, fun h => absurd h (by decide)⟩
  have hna : ∀ kv ∈ [("executor_cores", PyObj.param wCoresArg)],
      namedEntry kv := by
    intro kv hkv
    rw [List.mem_singleton] at hkv
    subst hkv
    refine namedEntry_of _ _ (fun sn hsn => ?_)
    have h1 : canonicalName "executor_cores" = some "executor-cores" := by
      decide
    rw [h1] at hsn
    rw [← Option.some.inj hsn]
    decide
  have hgt : ∀ kv ∈ [("executor_cores", PyObj.param wCoresTun)],
      goodEntry kv := by
    intro kv hkv
    rw [List.mem_singleton] at hkv
    subst hkv
    exact ⟨wCoresTun, rfl, fun h => absurd h (by decide)⟩
  have hnt : ∀ kv ∈ [("executor_cores", PyObj.param wCoresTun)],
      namedEntry kv := by
    intro kv hkv
    rw [List.mem_singleton] at hkv
    subst hkv
    refine namedEntry_of _ _ (fun sn hsn => ?_)
    have h1 : canonicalName "executor_cores" = some "executor-cores" := by
      decide
    rw [h1] at hsn
    rw [← Option.some.inj hsn]
    decide
  obtain ⟨D, C, hok, h1, _, _, _, _, _, _⟩ :=
    merge_params_precedence ⟨[], [], ""⟩
      [("executor_cores", PyObj.param wCoresArg)]
      [("executor_cores", PyObj.param wCoresTun)] hga hna hgt hnt
  refine ⟨D, C, hok, ?_⟩
  have h2 := h1 "executor_cores" SparkParam.EXECUTOR_CORES wCoresTun
    (by decide) (by decide)
  rw [show SparkParam.EXECUTOR_CORES.spark_name = "executor-cores" from
    by decide] at h2
  rw [show procVal wCoresTun = PVal.pint 5 from by decide] at h2
  exact h2

/-- **C1 counterexample.** The claim's "every memory-kind value is
normalized to a kibibyte byte string before entering the output maps" fails
for values that fall back to the built-in defaults: with the memory-kind
conf default `spark.sql.autoBroadcastJoinThreshold ↦ 10485760` and empty
input dicts, `merge_params` emits the raw integer `10485760` into the conf
map, not the formatted byte string `"10240k"` that
`Util.format_size(·, 'k')` would produce. -/
theorem merge_params_memory_default_cex :
    SparkSubmitCmd.merge_params
      ⟨[], [("spark.sql.autoBroadcastJoinThreshold", SparkParam.JOIN_THRESH)],
        ""⟩ [] [] =
      .ok ([], [("spark.sql.autoBroadcastJoinThreshold",
        PVal.pint 10485760)]) ∧
    SparkParam.JOIN_THRESH.kind = SparkKind.memory ∧
    Util.format_size ((10485760 : ℕ) : ℚ) "k" = .ok "10240k" ∧
    PVal.pint 10485760 ≠ PVal.pstr "10240k" := by
  refine ⟨by decide, by decide, ?_, by decide⟩
  have hden : (((10485760 : ℕ) : ℚ)).den = 1 := Rat.den_natCast _
  rw [Util.format_size, if_neg (by simp [hden])]
  rw [show Util.UNIT_LADDER = ["b", "k", "m", "g", "t"] from rfl]
  have h0 : Util.stopHere (((10485760 : ℕ) : ℚ)) "k" "b" = false := by
    rw [Util.stopHere]
    norm_num [hden]
    decide
  rw [format_size_loop_cons, if_neg (by rw [h0]; exact Bool.false_ne_true)]
  rw [show (((10485760 : ℕ) : ℚ)) / 1024 = 10240 by norm_num]
  have h1 : Util.stopHere (10240 : ℚ) "k" "k" = true := by
    simp [Util.stopHere]
  rw [format_size_loop_cons, if_pos h1]
  have ht : pyTrunc (10240 : ℚ) = 10240 := by
    rw [pyTrunc, if_neg (by norm_num)]
    rw [Int.floor_eq_iff]
    constructor <;> norm_num
  rw [ht]
  rfl

/-- the merge loop raises `AttributeError` at the first non-`SparkParamType`
entry: if every entry is processable or a non-parameter, and some entry is a
non-parameter, the whole fold errors. -/
theorem foldlM_mergeStep_attr (l : Dict PyObj) :
    (∀ kv ∈ l, goodEntry kv ∨ kv.2 = PyObj.notParam) →
    (∃ kv ∈ l, kv.2 = PyObj.notParam) →
    ∀ acc : Dict PVal × Dict PVal,
      List.foldlM mergeStep acc l = .error PyErr.attributeError := by
  induction l with
  | nil =>
    intro _ hex _
    obtain ⟨kv, hkv, _⟩ := hex
    exact absurd hkv (List.not_mem_nil _)
  | cons kv rest ih =>
    intro hall hex acc
    obtain ⟨dp, cp⟩ := acc
    rcases hall kv (List.mem_cons_self _ _) with hg | hnp
    · obtain ⟨p, hp, hm⟩ := hg
      rcases kv with ⟨flag, obj⟩
      subst hp
      rw [List.foldlM_cons, mergeStep_good dp cp flag p hm, except_bind_ok]
      refine ih (fun kv2 h2 => hall kv2 (List.mem_cons_of_mem _ h2)) ?_ _
      obtain ⟨kv2, hkv2, he2⟩ := hex
      rcases List.mem_cons.mp hkv2 with he | hm2
      · rw [he] at he2
        exact absurd he2 (by simp)
      · exact ⟨kv2, hm2, he2⟩
    · rcases kv with ⟨flag, obj⟩
      have hnp2 : obj = PyObj.notParam := hnp
      subst hnp2
      rw [List.foldlM_cons, mergeStep_notParam, except_bind_error]

/-- an entry whose flag is in neither registry is silently skipped: a fold
over only unregistered parameter entries is a no-op. -/
theorem foldlM_mergeStep_unregistered (l : Dict PyObj) :
    (∀ kv ∈ l, goodEntry kv ∧ dlookup kv.1 FLAG_TO_DIRECT_PARAM = none ∧
      dlookup kv.1 FLAG_TO_CONF_PARAM = none) →
    ∀ acc : Dict PVal × Dict PVal, List.foldlM mergeStep acc l = .ok acc := by
  induction l with
  | nil => intro _ _; rfl
  | cons kv rest ih =>
    intro hall acc
    obtain ⟨⟨p, hp, hm⟩, hd, hc⟩ := hall kv (List.mem_cons_self _ _)
    rcases kv with ⟨flag, obj⟩
    subst hp
    obtain ⟨dp, cp⟩ := acc
    have hd2 : dlookup flag FLAG_TO_DIRECT_PARAM = none := hd
    have hc2 : dlookup flag FLAG_TO_CONF_PARAM = none := hc
    rw [List.foldlM_cons, mergeStep_good dp cp flag p hm, except_bind_ok,
      if_neg (by rw [hd2]; exact Bool.false_ne_true),
      if_neg (by rw [hc2]; exact Bool.false_ne_true)]
    exact ih (fun kv2 h2 => hall kv2 (List.mem_cons_of_mem _ h2)) (dp, cp)

/-! ## C10 -/

/-- **C10 (amended).** `merge_params` raises no `ConfigError` (the
repository's `SparkTunerConfigError` is raised only by the search-space
builder for an unsupported parameter kind, never by the command
synthesizer's merge); its actual failure behaviour is: a
non-`SparkParamType` object in either input dict makes `merge_params` fail
synchronously with `AttributeError` (raised by the `param.value` access),
while an input dict keyed on parameter native (Spark) names — or any other
unregistered flag — is *silently dropped*: the merge succeeds and returns
only the instance defaults. -/
theorem merge_params_failure_modes :
    (∀ (cmd : SparkSubmitCmd) (arg_dict tuner_cfg_dict : Dict PyObj),
      (∀ kv ∈ dictUpdate (dictUpdate [] arg_dict) tuner_cfg_dict,
        goodEntry kv ∨ kv.2 = PyObj.notParam) →
      (∃ kv ∈ dictUpdate (dictUpdate [] arg_dict) tuner_cfg_dict,
        kv.2 = PyObj.notParam) →
      SparkSubmitCmd.merge_params cmd arg_dict tuner_cfg_dict =
        .error PyErr.attributeError) ∧
    (∀ (cmd : SparkSubmitCmd) (arg_dict tuner_cfg_dict : Dict PyObj),
      (∀ kv ∈ dictUpdate (dictUpdate [] arg_dict) tuner_cfg_dict,
        goodEntry kv ∧ dlookup kv.1 FLAG_TO_DIRECT_PARAM = none ∧
          dlookup kv.1 FLAG_TO_CONF_PARAM = none) →
      SparkSubmitCmd.merge_params cmd arg_dict tuner_cfg_dict =
        .ok (get_value_map cmd.direct_param_default,
          get_value_map cmd.conf_defaults)) := by
  constructor
  · intro cmd a t hall hex
    simp only [SparkSubmitCmd.merge_params]
    rw [foldlM_mergeStep_attr _ hall hex ([], []), except_bind_error]
  · intro cmd a t hall
    simp only [SparkSubmitCmd.merge_params]
    rw [foldlM_mergeStep_unregistered _ hall ([], []), except_bind_ok]
    rfl

/-- **C10 witness.** The amended theorem applied at a dict holding a
non-parameter under flag `"x"` (`AttributeError`), and at a dict keyed on
the native name `driver-memory` (silently dropped; only the — empty —
defaults are returned). -/
theorem merge_params_failure_modes_witness :
    SparkSubmitCmd.merge_params ⟨[], [], ""⟩ [("x", PyObj.notParam)] [] =
      .error PyErr.attributeError ∧
    SparkSubmitCmd.merge_params ⟨[], [], ""⟩
      [("driver-memory", PyObj.param SparkParam.DRIVER_MEM)] [] =
      .ok ([], []) := by
  constructor
  · refine merge_params_failure_modes.1 ⟨[], [], ""⟩
      [("x", PyObj.notParam)] [] ?_ ?_
    · intro kv hkv
      have hkv2 : kv ∈ [("x", PyObj.notParam)] := hkv
      rw [List.mem_singleton] at hkv2
      subst hkv2
      exact Or.inr rfl
    · exact ⟨("x", PyObj.notParam),
        (List.mem_singleton_self _ : _ ∈ [("x", PyObj.notParam)]), rfl⟩
  · refine merge_params_failure_modes.2 ⟨[], [], ""⟩
      [("driver-memory", PyObj.param SparkParam.DRIVER_MEM)] [] ?_
    intro kv hkv
    have hkv2 : kv ∈ [("driver-memory", PyObj.param SparkParam.DRIVER_MEM)] :=
      hkv
    rw [List.mem_singleton] at hkv2
    subst hkv2
    exact ⟨⟨SparkParam.DRIVER_MEM, rfl, fun _ => ⟨10485760, by decide⟩⟩,
      by decide, by decide⟩

/-- **C10 counterexample.** A dict keyed on the parameter's native Spark
name `executor-cores` (which is in neither flag registry) does not make the
merge fail at all: `merge_params` succeeds with empty outputs, silently
dropping the entry — no error of any kind is surfaced. -/
theorem merge_params_native_key_cex :
    SparkSubmitCmd.merge_params ⟨[], [], ""⟩
      [("executor-cores", PyObj.param SparkParam.EXECUTOR_CORES)] [] =
      .ok ([], []) ∧
    SparkParam.EXECUTOR_CORES.spark_name = "executor-cores" ∧
    dlookup "executor-cores" FLAG_TO_DIRECT_PARAM = none ∧
    dlookup "executor-cores" FLAG_TO_CONF_PARAM = none := by
  refine ⟨by decide, by decide, by decide, by decide⟩

/-! ## C2 -/

/-- **C2.** `call_program` on a pid not already registered: a timed-out run
returns `timeout = true` and `time = +inf`; a completed run returns
`timeout = false` and `time` equal to the elapsed wall clock `t1 - t0`; an
escaping exception propagates as an error; and on every one of the three
exit paths the `finally:` block removes the pid from the shared pid list,
which is restored to exactly its pre-call state — in particular it no
longer contains the pid. -/
theorem call_program_spec (pid : ℕ) (t0 t1 : ℚ) (outcome : RunOutcome)
    (returncode : Option ℤ) (pids : List ℕ) (hfresh : pid ∉ pids) :
    (outcome = RunOutcome.timesOut →
      (MeasurementInterfaceExt.call_program pid t0 t1 outcome returncode
        pids).1 = .ok ⟨.pinf, true, returncode⟩) ∧
    (outcome = RunOutcome.completes →
      (MeasurementInterfaceExt.call_program pid t0 t1 outcome returncode
        pids).1 = .ok ⟨.real (t1 - t0), false, returncode⟩) ∧
    (outcome = RunOutcome.raisesExc →
      (MeasurementInterfaceExt.call_program pid t0 t1 outcome returncode
        pids).1 = .error ()) ∧
    (MeasurementInterfaceExt.call_program pid t0 t1 outcome returncode
      pids).2 = pids ∧
    pid ∉ (MeasurementInterfaceExt.call_program pid t0 t1 outcome returncode
      pids).2 := by
  have hmem : pid ∈ pids ++ [pid] := List.mem_append_right _ (by simp)
  have herase : (pids ++ [pid]).erase pid = pids := by
    rw [List.erase_append_right _ hfresh, List.erase_cons_head,
      List.append_nil]
  have hsnd : (MeasurementInterfaceExt.call_program pid t0 t1 outcome
      returncode pids).2 = pids := by
    cases outcome <;>
      simp [MeasurementInterfaceExt.call_program, hmem, herase]
  refine ⟨?_, ?_, ?_, hsnd, fun hc => hfresh (by rwa [hsnd] at hc)⟩
  · intro h
    subst h
    rfl
  · intro h
    subst h
    rfl
  · intro h
    subst h
    rfl

/-- **C2 witness.** The theorem applied at `pid = 7`, wall clock `0 → 2`,
a timed-out run with sampled return code `-9`, and live pid list `[3, 4]`. -/
theorem call_program_spec_witness :
    (7 : ℕ) ∉ ([3, 4] : List ℕ) ∧
    ((RunOutcome.timesOut = RunOutcome.timesOut →
      (MeasurementInterfaceExt.call_program 7 0 2 RunOutcome.timesOut
        (some (-9)) [3, 4]).1 = .ok ⟨.pinf, true, some (-9)⟩) ∧
     (RunOutcome.timesOut = RunOutcome.completes →
      (MeasurementInterfaceExt.call_program 7 0 2 RunOutcome.timesOut
        (some (-9)) [3, 4]).1 = .ok ⟨.real (2 - 0), false, some (-9)⟩) ∧
     (RunOutcome.timesOut = RunOutcome.raisesExc →
      (MeasurementInterfaceExt.call_program 7 0 2 RunOutcome.timesOut
        (some (-9)) [3, 4]).1 = .error ()) ∧
     (MeasurementInterfaceExt.call_program 7 0 2 RunOutcome.timesOut
       (some (-9)) [3, 4]).2 = [3, 4] ∧
     7 ∉ (MeasurementInterfaceExt.call_program 7 0 2 RunOutcome.timesOut
       (some (-9)) [3, 4]).2) :=
  ⟨by decide,
   call_program_spec 7 0 2 RunOutcome.timesOut (some (-9)) [3, 4] (by decide)⟩

end Sparktuner
